import Mathlib

/-!
# Messaging subsystem of the 3D marketplace (ACCETRA/vertex)

A shallow embedding of the message routes (`routes/messages.js`), the validation
chains they use (`middleware/validation.js`), the token check (`routes/auth.js`), the live
channel (`server.js`), the input sanitizer (`middleware/security.js`), the error handler
(`middleware/errorHandler.js`) and the tables they read and write (`scripts/init-db.js`),
followed by theorems about them.

Conventions of the embedding.

* A table is the list of its rows in rowid order.  `users.id`, `products.id` and
  `messages.id` are `INTEGER PRIMARY KEY`, so a join on `id` selects at most one row;
  it is embedded as a lookup.
* `sent_at` is `DATETIME DEFAULT CURRENT_TIMESTAMP`: the text `YYYY-MM-DD HH:MM:SS`,
  which SQLite compares as text.  That order is the order of the instants, so `sent_at`
  is a natural number (seconds), and the store clock is an argument of every insert.
* `ORDER BY x DESC` fixes the order of two rows only when they differ in `x`.  The order the
  database engine gives to ties is an argument of the handlers (`Engine`); theorems hold
  for every engine that returns a sorted permutation, and `stableEngine` (ties keep the
  order of the scanned rows) is the instance used for concrete evaluations.
* Query and body parameters that the code uses as numbers are integers; text that does not
  denote an integer is outside the embedding.  `getMessages` is the response of the listing
  in exact integers; `getMessagesAnswer` is the route with the numbers of JavaScript
  (`jsNumber`) and with the check SQLite makes of the values bound to `LIMIT` and `OFFSET`.
* A statement SQLite refuses hands an error to the callback, which throws it: the handler
  writes no response (`none` in `getMessagesAnswer`, `thrown` in `getConversations`).
* The body of `POST /` is the body as the router receives it, after the global
  `sanitizeInput`; where a theorem speaks of the text a client sends, `sanitizeString` is
  applied to it.
-/

namespace Vertex

/-! ## Tables (`scripts/init-db.js`) -/

/-- Row of `users`, with the columns the message routes read. -/
structure User where
  id : Nat
  username : String
  bio : Option String
  profile_pic : Option String
deriving DecidableEq, Repr

/-- Row of `products`, with the columns the message routes read. -/
structure Product where
  id : Nat
  title : String
deriving DecidableEq, Repr

/-- Row of `messages`. -/
structure Message where
  id : Nat
  sender_id : Nat
  receiver_id : Nat
  product_id : Option Nat
  text : String
  sent_at : Nat
deriving DecidableEq, Repr

/-- The database: the three tables and the `sqlite_sequence` entry of `messages`
(`id INTEGER PRIMARY KEY AUTOINCREMENT`). -/
structure Store where
  users : List User
  products : List Product
  messages : List Message
  messageSeq : Nat
deriving DecidableEq, Repr

/-- The row of `users` with the given id (`... FROM users WHERE id = ?`, `JOIN users ON id = ...`). -/
def lookupUser (s : Store) (i : Nat) : Option User :=
  s.users.find? (fun u => u.id == i)

/-- The row of `products` with the given id. -/
def lookupProduct (s : Store) (i : Nat) : Option Product :=
  s.products.find? (fun p => p.id == i)

/-! ## The database engine -/

/-- The order in which the engine returns the rows of an `ORDER BY key DESC`. -/
structure Engine where
  orderByDesc : {α : Type} → (α → Nat) → List α → List α

/-- What SQL promises of `ORDER BY key DESC`: the same rows, with `key` non-increasing. -/
def Engine.Lawful (e : Engine) : Prop :=
  ∀ (α : Type) (key : α → Nat) (l : List α),
    (e.orderByDesc key l).Perm l ∧ (e.orderByDesc key l).Pairwise (fun a b => key b ≤ key a)

/-- An engine whose sorter is stable: rows with equal keys stay in scan order. -/
def stableEngine : Engine where
  orderByDesc := fun key l => l.insertionSort (fun a b => key b ≤ key a)

/-- The clause `LIMIT limit OFFSET offset` of SQLite on values it takes (integers of 64 bits,
`sqliteTakesLimit` and `sqliteTakesOffset`): a negative offset is no offset, a negative limit is
no limit. -/
def sqlLimitOffset {α : Type} (rows : List α) (limit offset : Int) : List α :=
  let rest := rows.drop offset.toNat
  if limit < 0 then rest else rest.take limit.toNat

/-! ## `GET /api/messages` (`routes/messages.js`, lines 10-68) -/

/-- The query string `req.query` of `GET /`; `none` is an absent parameter. -/
structure ListQuery where
  page : Option Int
  limit : Option Int
  conversation : Option Nat
deriving DecidableEq, Repr

/-- Row of the listing: `m.*`, `sender_username`, `receiver_username`, `product_title`. -/
structure MessageRow where
  m : Message
  sender_username : String
  receiver_username : String
  product_title : Option String
deriving DecidableEq, Repr

/-- The `WHERE` clause of both statements of `GET /`.  Without `conversation` it is
`m.receiver_id = ? OR m.sender_id = ?`; with it the text
` AND ((m.sender_id = ? AND m.receiver_id = ?) OR (m.sender_id = ? AND m.receiver_id = ?))`
is appended, and `AND` binds tighter than `OR`. -/
def listWhere (userId : Nat) (conversation : Option Nat) (m : Message) : Bool :=
  match conversation with
  | none => m.receiver_id == userId || m.sender_id == userId
  | some c =>
    m.receiver_id == userId ||
      (m.sender_id == userId &&
        ((m.sender_id == userId && m.receiver_id == c) ||
          (m.sender_id == c && m.receiver_id == userId)))

/-- The joins of the listing: `JOIN users su`, `JOIN users ru`, `LEFT JOIN products p`. -/
def joinRow (s : Store) (m : Message) : Option MessageRow :=
  match lookupUser s m.sender_id, lookupUser s m.receiver_id with
  | some su, some ru =>
    some
      { m := m
        sender_username := su.username
        receiver_username := ru.username
        product_title := (m.product_id.bind (lookupProduct s)).map (fun p => p.title) }
  | _, _ => none

/-- The rows the listing statement selects, before `ORDER BY` and `LIMIT`. -/
def listRows (s : Store) (userId : Nat) (conversation : Option Nat) : List MessageRow :=
  (s.messages.filter (listWhere userId conversation)).filterMap (joinRow s)

/-- The count statement: `SELECT COUNT(*) as total FROM messages m WHERE ...` (no join). -/
def listTotal (s : Store) (userId : Nat) (conversation : Option Nat) : Nat :=
  (s.messages.filter (listWhere userId conversation)).length

/-- The value `Math.ceil(total / limit)` as it is serialised: `none` is JSON `null`
(the quotient by zero is `Infinity` or `NaN`). -/
def jsPages (total : Nat) (limit : Int) : Option Int :=
  if limit = 0 then none
  else if 0 < limit then some (((total : Int) + limit - 1) / limit)
  else some (-((total : Int) / (-limit)))

/-- The `pagination` object of the response. -/
structure Pagination where
  page : Int
  limit : Int
  total : Nat
  pages : Option Int
deriving DecidableEq, Repr

/-- The body of the `200` response of `GET /`. -/
structure ListResponse where
  messages : List MessageRow
  pagination : Pagination
deriving DecidableEq, Repr

/-- The row limit bound to `LIMIT ?`: `limit` of the query, `50` when absent. -/
def listLimit (q : ListQuery) : Int := q.limit.getD 50

/-- The offset bound to `OFFSET ?`: `(page - 1) * limit`, `page` being `1` when absent. -/
def listOffset (q : ListQuery) : Int := (q.page.getD 1 - 1) * listLimit q

/-- The rows returned by the listing statement: `... ORDER BY m.sent_at DESC LIMIT ? OFFSET ?`. -/
def listPage (e : Engine) (s : Store) (userId : Nat) (q : ListQuery) : List MessageRow :=
  sqlLimitOffset (e.orderByDesc (fun r => r.m.sent_at) (listRows s userId q.conversation))
    (listLimit q) (listOffset q)

/-- The handler of `GET /` for the authenticated user `userId`, in exact integers: the response
the handler builds from the rows of the listing statement.  It is what the route answers when
page, limit and offset are below `2 ^ 53` in size (`getMessagesAnswer`). -/
def getMessages (e : Engine) (s : Store) (userId : Nat) (q : ListQuery) : ListResponse :=
  { messages := (listPage e s userId q).reverse
    pagination :=
      { page := q.page.getD 1
        limit := listLimit q
        total := listTotal s userId q.conversation
        pages := jsPages (listTotal s userId q.conversation) (listLimit q) } }

/-- The number of binary digits of `a`, counted in at most `fuel` halvings. -/
def bitLengthAux : Nat → Nat → Nat
  | 0, _ => 0
  | fuel + 1, a => if a = 0 then 0 else bitLengthAux fuel (a / 2) + 1

/-- The number of binary digits of `a`. -/
def bitLength (a : Nat) : Nat := bitLengthAux a a

/-- The significand of the number nearest to `a` with unit `2 ^ e`: the quotient, one more when
the remainder is above half a unit, or is half a unit and the quotient is odd. -/
def roundedSignificand (a e : Nat) : Nat :=
  let q := a / 2 ^ e
  let r := a % 2 ^ e
  if 2 ^ (e - 1) < r ∨ (r = 2 ^ (e - 1) ∧ q % 2 = 1) then q + 1 else q

/-- The number of JavaScript (binary64: 53 significant bits, ties to the even significand)
nearest to an integer: the value of `Number(text)` and of `parseInt(text)` for the text of an
integer, and the result of an operation whose exact result is that integer.  `none` is a value
that is not finite. -/
def jsNumber (i : Int) : Option Int :=
  let a := i.natAbs
  if a < 2 ^ 53 then some i
  else
    let e := bitLength a - 53
    let q := roundedSignificand a e
    if 971 < e ∨ (e = 971 ∧ q = 2 ^ 53) then none
    else some (i.sign * ((q * 2 ^ e : Nat) : Int))

/-- The value `offset` of the handler: `(page - 1) * limit` on numbers of JavaScript. -/
def jsOffset (q : ListQuery) : Option Int :=
  (jsNumber (q.page.getD 1)).bind fun page =>
    (jsNumber (listLimit q)).bind fun limit =>
      (jsNumber (page - 1)).bind fun pageBefore => jsNumber (pageBefore * limit)

/-- Whether SQLite takes the value bound to `LIMIT ?`, the text of `limit` or the integer `50`:
it must be an integer of 64 bits; for any other the statement fails with `datatype mismatch`. -/
def sqliteTakesLimit (limit : Int) : Bool :=
  decide (-(2 ^ 63) ≤ limit ∧ limit < 2 ^ 63)

/-- Whether SQLite takes the number bound to `OFFSET ?`: a number outside the 32-bit integers is
bound as a float, which must be an integer strictly between `-2 ^ 63` and `2 ^ 63`. -/
def sqliteTakesOffset (offset : Int) : Bool :=
  decide (-(2 ^ 63) < offset ∧ offset < 2 ^ 63)

/-- The route `GET /` after `verifyToken`, with the numbers of JavaScript and the check SQLite
makes of the bound values.  `none`: the listing statement fails, the callback throws the error
and no response is written.  Otherwise the response is that of `getMessages` with the offset as
computed and with `page`, `limit` and `pages` as the numbers `parseInt(page)`,
`parseInt(limit)` and `Math.ceil(total / limit)` (the count of rows being below `2 ^ 53`). -/
def getMessagesAnswer (e : Engine) (s : Store) (userId : Nat) (q : ListQuery) :
    Option ListResponse :=
  (jsNumber (q.page.getD 1)).bind fun page =>
    (jsNumber (listLimit q)).bind fun limit =>
      (jsOffset q).bind fun offset =>
        if sqliteTakesLimit (listLimit q) && sqliteTakesOffset offset then
          some
            { messages :=
                (sqlLimitOffset
                  (e.orderByDesc (fun r => r.m.sent_at) (listRows s userId q.conversation))
                  (listLimit q) offset).reverse
              pagination :=
                { page := page
                  limit := limit
                  total := listTotal s userId q.conversation
                  pages := jsPages (listTotal s userId q.conversation) limit } }
        else none

/-! ## `GET /api/messages/conversations` (`routes/messages.js`, lines 70-111) -/

/-- The peer of a message: `CASE WHEN m.sender_id = ? THEN m.receiver_id ELSE m.sender_id END`. -/
def otherUserId (userId : Nat) (m : Message) : Nat :=
  if m.sender_id = userId then m.receiver_id else m.sender_id

/-- The condition of the two inner selects that range over a conversation:
`(sender_id = ? AND receiver_id = other_user_id) OR (sender_id = other_user_id AND receiver_id = ?)`. -/
def betweenWhere (userId other : Nat) (m : Message) : Bool :=
  (m.sender_id == userId && m.receiver_id == other) ||
    (m.sender_id == other && m.receiver_id == userId)

/-- The aggregate `MAX(sent_at)`; `none` is SQL `NULL`, the value over no rows. -/
def maxSentAt (l : List Message) : Option Nat :=
  l.foldr (fun m acc => some (match acc with
    | none => m.sent_at
    | some t => max m.sent_at t)) none

/-- The comparison `sent_at > COALESCE(watermark, '1970-01-01')`: the date `'1970-01-01'` is
smaller, as text, than every stored timestamp. -/
def afterWatermark (sentAt : Nat) (watermark : Option Nat) : Bool :=
  match watermark with
  | none => true
  | some t => decide (t < sentAt)

/-- The inner select of `unread_count`:
`SELECT COUNT(*) FROM messages WHERE receiver_id = ? AND sender_id = other_user_id AND sent_at >
COALESCE((SELECT MAX(sent_at) FROM messages WHERE (sender_id = ? AND receiver_id = other_user_id)
OR (sender_id = other_user_id AND receiver_id = ?)), '1970-01-01')`. -/
def unreadCount (s : Store) (userId other : Nat) : Nat :=
  (s.messages.filter (fun m =>
    m.receiver_id == userId && m.sender_id == other &&
      afterWatermark m.sent_at (maxSentAt (s.messages.filter (betweenWhere userId other))))).length

/-- The inner select of `last_message`:
`SELECT text FROM messages WHERE ... ORDER BY sent_at DESC LIMIT 1`. -/
def lastMessage (e : Engine) (s : Store) (userId other : Nat) : Option String :=
  ((e.orderByDesc (fun m => m.sent_at) (s.messages.filter (betweenWhere userId other))).head?).map
    (fun m => m.text)

/-- Row of the conversation list. -/
structure ConversationRow where
  other_user_id : Nat
  username : String
  bio : Option String
  profile_pic : Option String
  last_message_time : Nat
  last_message : Option String
  unread_count : Nat
deriving DecidableEq, Repr

/-- The rows of `FROM messages m JOIN users u ON u.id = CASE ... END
WHERE m.sender_id = ? OR m.receiver_id = ?`: each message of the user with its peer. -/
def conversationJoin (s : Store) (userId : Nat) : List (Message × User) :=
  (s.messages.filter (fun m => m.sender_id == userId || m.receiver_id == userId)).filterMap
    (fun m => (lookupUser s (otherUserId userId m)).map (fun u => (m, u)))

/-- The groups of `GROUP BY other_user_id, u.username, u.bio, u.profile_pic`. -/
def conversationKeys (s : Store) (userId : Nat) : List (Nat × User) :=
  ((conversationJoin s userId).map (fun mu => (otherUserId userId mu.1, mu.2))).dedup

/-- The output row of one group. -/
def conversationRow (e : Engine) (s : Store) (userId : Nat) (k : Nat × User) : ConversationRow :=
  { other_user_id := k.1
    username := k.2.username
    bio := k.2.bio
    profile_pic := k.2.profile_pic
    last_message_time :=
      (maxSentAt (((conversationJoin s userId).filter
        (fun mu => decide ((otherUserId userId mu.1, mu.2) = k))).map (fun mu => mu.1))).getD 0
    last_message := lastMessage e s userId k.1
    unread_count := unreadCount s userId k.1 }

/-- The rows the text of the statement describes: one row per group, `ORDER BY last_message_time
DESC`, the name `other_user_id` inside the inner selects being read as the peer of the row that
is output. -/
def conversationRows (e : Engine) (s : Store) (userId : Nat) : List ConversationRow :=
  e.orderByDesc (fun r => r.last_message_time)
    ((conversationKeys s userId).map (conversationRow e s userId))

/-- The columns of `messages` (`scripts/init-db.js`, lines 59-69). -/
def messagesColumns : List String :=
  ["id", "sender_id", "receiver_id", "product_id", "text", "sent_at"]

/-- The columns of `users` (`scripts/init-db.js`, lines 21-30). -/
def usersColumns : List String :=
  ["id", "username", "email", "password", "account_type", "bio", "profile_pic", "created_at"]

/-- The names the inner selects of the statement (lines 84-96) use for columns, none of them
qualified, in the order in which the text first has them. -/
def conversationInnerNames : List String :=
  ["text", "sender_id", "receiver_id", "other_user_id", "sent_at"]

/-- The first name of the inner selects that SQLite does not resolve when it prepares the
statement.  A name of an inner select of the select list is looked up among the columns of the
inner `FROM` (`messages`), then among those of the enclosing `FROM` (`messages m`, `users u`); the
aliases of the select list that holds the inner select, `other_user_id` among them, are not in
scope there. -/
def unresolvedColumn : Option String :=
  conversationInnerNames.find? (fun name =>
    !(messagesColumns.contains name || usersColumns.contains name))

/-- What the callback of `db.all` does in `GET /conversations`. -/
inductive ConversationsResult where
  /-- The statement was refused: `err` is set, the callback throws it and no response is
  written. -/
  | thrown (message : String)
  /-- The call `res.json(conversations)`. -/
  | rows (conversations : List ConversationRow)
deriving DecidableEq, Repr

/-- The handler of `GET /conversations` for the authenticated user `userId`: the statement is
prepared, and run when every name of it resolves. -/
def getConversations (e : Engine) (s : Store) (userId : Nat) : ConversationsResult :=
  match unresolvedColumn with
  | some name => .thrown ("SQLITE_ERROR: no such column: " ++ name)
  | none => .rows (conversationRows e s userId)

/-! ## `POST /api/messages` (`middleware/validation.js` lines 110-126, `routes/messages.js`
lines 113-165) -/

/-- The characters the sanitizer `trim()` removes (the class `\s` of JavaScript). -/
def jsIsSpace (c : Char) : Bool :=
  let n := c.toNat
  n == 0x09 || n == 0x0A || n == 0x0B || n == 0x0C || n == 0x0D || n == 0x20 || n == 0xA0 ||
    n == 0x1680 || (0x2000 ≤ n && n ≤ 0x200A) || n == 0x2028 || n == 0x2029 || n == 0x202F ||
    n == 0x205F || n == 0x3000 || n == 0xFEFF

/-- The sanitizer `trim()`: white space removed at both ends. -/
def jsTrim (t : String) : String :=
  String.mk (((t.data.dropWhile jsIsSpace).reverse.dropWhile jsIsSpace).reverse)

/-- The length `isLength` of the validation library compares with its bounds: the characters of
the text (a surrogate pair counts once), the variation selectors U+FE0E and U+FE0F not
counted. -/
def validatorLength (t : String) : Nat :=
  (t.data.filter (fun c => !(c.toNat == 0xFE0E || c.toNat == 0xFE0F))).length

/-- The body `req.body` of `POST /` as the router receives it.  `none` is an absent field; an
absent `text` is the empty string (the validator reads it so). -/
structure MessageBody where
  receiverId : Option Int
  productId : Option Int
  text : String
deriving DecidableEq, Repr

/-- The three chains of `validateMessage`: the body after the sanitizers, and the messages of the
failed checks.  `isInt({ min: 1 })`, `optional()`, `trim().isLength({ min: 1, max: 1000 })`. -/
def validateMessage (b : MessageBody) : MessageBody × List String :=
  let text := jsTrim b.text
  let receiverErrors :=
    match b.receiverId with
    | some r => if 1 ≤ r then [] else ["Valid receiver ID is required"]
    | none => ["Valid receiver ID is required"]
  let productErrors :=
    match b.productId with
    | some q => if 1 ≤ q then [] else ["Product ID must be a valid integer"]
    | none => []
  let textErrors :=
    if 1 ≤ validatorLength text ∧ validatorLength text ≤ 1000 then []
    else ["Message text is required and must be less than 1000 characters"]
  ({ b with text := text }, receiverErrors ++ productErrors ++ textErrors)

/-- The id an `AUTOINCREMENT` key gives to the next row of `messages`: one more than the largest
id in the table and in `sqlite_sequence`. -/
def nextMessageId (s : Store) : Nat :=
  (s.messages.map (fun m => m.id)).foldr max s.messageSeq + 1

/-- The foreign keys of a row of `messages` (`PRAGMA foreign_keys = ON`, `db.js`): sender and
receiver are rows of `users`, and the product, when not `NULL`, a row of `products`. -/
def foreignKeysOk (s : Store) (senderId receiverId : Nat) (productId : Option Nat) : Bool :=
  (lookupUser s senderId).isSome && (lookupUser s receiverId).isSome &&
    (match productId with
      | some q => (lookupProduct s q).isSome
      | none => true)

/-- The statement `INSERT INTO messages (sender_id, receiver_id, product_id, text) VALUES (?, ?, ?, ?)`:
the store assigns `id` and `sent_at` (the clock `now`); the result is `lastID` and the new
store, or `none` when a foreign key has no target. -/
def insertMessage (s : Store) (now : Nat) (senderId receiverId : Nat) (productId : Option Nat)
    (text : String) : Option (Nat × Store) :=
  if foreignKeysOk s senderId receiverId productId then
    some (nextMessageId s,
      { s with
        messages := s.messages ++
          [{ id := nextMessageId s, sender_id := senderId, receiver_id := receiverId,
             product_id := productId, text := text, sent_at := now }]
        messageSeq := nextMessageId s })
  else none

/-- What `POST /` answers. -/
inductive PostResult where
  /-- Status `400` of `handleValidationErrors`, with the messages of the failed checks. -/
  | validationFailed (details : List String)
  /-- Status `404`, `Receiver not found`. -/
  | receiverNotFound
  /-- Status `404`, `Product not found`. -/
  | productNotFound
  /-- The insert reported an error, which the callback throws: no response is written. -/
  | storeError
  /-- Status `201` with the row read back by `WHERE m.id = lastID`. -/
  | created (message : Option MessageRow)
deriving DecidableEq, Repr

/-- The status code of the response, if one is written. -/
def PostResult.status : PostResult → Option Nat
  | .validationFailed _ => some 400
  | .receiverNotFound => some 404
  | .productNotFound => some 404
  | .storeError => none
  | .created _ => some 201

/-- A parameter bound to `WHERE id = ?` of `users`. -/
def lookupUserInt (s : Store) (i : Int) : Option User :=
  if 0 ≤ i then lookupUser s i.toNat else none

/-- A parameter bound to `WHERE id = ?` of `products`. -/
def lookupProductInt (s : Store) (i : Int) : Option Product :=
  if 0 ≤ i then lookupProduct s i.toNat else none

/-- The function `insertMessage()` of the handler and its callback: insert, then read the row
back with its joins. -/
def insertAndRespond (s : Store) (now : Nat) (senderId receiverId : Nat) (productId : Option Nat)
    (text : String) : PostResult × Store :=
  match insertMessage s now senderId receiverId productId text with
  | none => (.storeError, s)
  | some (lastID, s') =>
    (.created ((s'.messages.find? (fun m => m.id == lastID)).bind (joinRow s')), s')

/-- The handler of `POST /` on a body that passed validation; `senderId` is `req.user.id`.
The receiver is looked up, then the product when `productId` is truthy (`0` is not); the insert
binds `receiverId` and `productId || null`, which are the ids of the rows just found. -/
def sendHandler (s : Store) (now : Nat) (senderId : Nat) (b : MessageBody) : PostResult × Store :=
  match b.receiverId.bind (lookupUserInt s) with
  | none => (.receiverNotFound, s)
  | some receiver =>
    match b.productId with
    | some q =>
      if q = 0 then insertAndRespond s now senderId receiver.id none b.text
      else
        match lookupProductInt s q with
        | none => (.productNotFound, s)
        | some product => insertAndRespond s now senderId receiver.id (some product.id) b.text
    | none => insertAndRespond s now senderId receiver.id none b.text

/-- The route `POST /` after `verifyToken`: `validateMessage`, `handleValidationErrors`, handler.
The result is the answer and the store afterwards. -/
def postMessage (s : Store) (now : Nat) (senderId : Nat) (b : MessageBody) : PostResult × Store :=
  let v := validateMessage b
  if v.2 = [] then sendHandler s now senderId v.1
  else (.validationFailed v.2, s)

/-! ## `PUT /api/messages/read/:conversationId` (`middleware/validation.js` lines 138-145,
`routes/messages.js` lines 167-182) -/

/-- The path parameters `req.params`: the names in the route path with their values. -/
abbrev RouteParams := List (String × Int)

/-- The chain `validateIdParam`: `param('id').isInt({ min: 1 })`; the result is the messages of the
failed checks. -/
def validateIdParam (params : RouteParams) : List String :=
  match params.lookup "id" with
  | some n => if 1 ≤ n then [] else ["ID must be a valid integer"]
  | none => ["ID must be a valid integer"]

/-- The statement `UPDATE messages SET sent_at = sent_at WHERE receiver_id = ? AND sender_id = ?`. -/
def markReadUpdate (s : Store) (userId : Nat) (conversationId : Int) : Store :=
  { s with
    messages := s.messages.map (fun m =>
      if m.receiver_id == userId && ((m.sender_id : Int) == conversationId) then
        { m with sent_at := m.sent_at }
      else m) }

/-- What `PUT /read/:conversationId` answers. -/
inductive PutResult where
  /-- Status `400` of `handleValidationErrors`. -/
  | validationFailed (details : List String)
  /-- Status `200`, `Messages marked as read`. -/
  | marked
deriving DecidableEq, Repr

/-- The status code of the response. -/
def PutResult.status : PutResult → Nat
  | .validationFailed _ => 400
  | .marked => 200

/-- The route `PUT /read/:conversationId` after `verifyToken`: `validateIdParam`,
`handleValidationErrors`, handler.  An absent `conversationId` is bound as `NULL`, which equals
no `sender_id`. -/
def putRead (s : Store) (userId : Nat) (params : RouteParams) : PutResult × Store :=
  if validateIdParam params = [] then
    match params.lookup "conversationId" with
    | some c => (.marked, markReadUpdate s userId c)
    | none => (.marked, s)
  else (.validationFailed (validateIdParam params), s)

/-! ## `verifyToken` (`routes/auth.js`, lines 80-98) and the guarded routes -/

/-- What `jwt.verify(token, JWT_SECRET)` does with a token: it returns the payload, of which the
routes read `id`, or throws `TokenExpiredError`, or throws another error. -/
inductive JwtResult where
  | verified (id : Nat)
  | expired
  | rejected
deriving DecidableEq, Repr

/-- The call `str.replace(pat, '')` of JavaScript with a text pattern: the first occurrence of
`pat` is removed. -/
def removeFirst (pat : List Char) : List Char → List Char
  | [] => []
  | c :: cs =>
    if (c :: cs).take pat.length = pat then (c :: cs).drop pat.length
    else c :: removeFirst pat cs

/-- The token read from the header: `authHeader.replace('Bearer ', '')`. -/
def bearerToken (authHeader : String) : String :=
  String.mk (removeFirst "Bearer ".data authHeader.data)

/-- The middleware `verifyToken`: the id of the verified user (`req.user.id`, then `next()`), or
the status and the error text of the response it writes itself. -/
def verifyToken (jwtVerify : String → JwtResult) (authHeader : Option String) :
    Except (Nat × String) Nat :=
  match authHeader with
  | none => .error (401, "Access denied. No token provided.")
  | some h =>
    if h = "" then .error (401, "Access denied. No token provided.")
    else if bearerToken h = "" then .error (401, "Access denied. Invalid token format.")
    else
      match jwtVerify (bearerToken h) with
      | .verified id => .ok id
      | .expired => .error (401, "Token expired")
      | .rejected => .error (400, "Invalid token")

/-- A route whose chain starts with `verifyToken`: the rest of the chain runs only after
`next()`, with the verified user; otherwise the answer is the one of `verifyToken` and the store
is not touched. -/
def guarded {α : Type} (jwtVerify : String → JwtResult) (authHeader : Option String) (s : Store)
    (rest : Nat → α × Store) : Except (Nat × String) α × Store :=
  match verifyToken jwtVerify authHeader with
  | .error r => (.error r, s)
  | .ok userId => (.ok (rest userId).1, (rest userId).2)

/-- `router.get('/', verifyToken, ...)`. -/
def getMessagesRoute (jwtVerify : String → JwtResult) (e : Engine) (s : Store)
    (authHeader : Option String) (q : ListQuery) : Except (Nat × String) ListResponse × Store :=
  guarded jwtVerify authHeader s (fun userId => (getMessages e s userId q, s))

/-- `router.get('/conversations', verifyToken, ...)`. -/
def getConversationsRoute (jwtVerify : String → JwtResult) (e : Engine) (s : Store)
    (authHeader : Option String) : Except (Nat × String) ConversationsResult × Store :=
  guarded jwtVerify authHeader s (fun userId => (getConversations e s userId, s))

/-- `router.post('/', verifyToken, validateMessage, ...)`. -/
def postMessageRoute (jwtVerify : String → JwtResult) (s : Store) (now : Nat)
    (authHeader : Option String) (b : MessageBody) : Except (Nat × String) PostResult × Store :=
  guarded jwtVerify authHeader s (fun userId => postMessage s now userId b)

/-- `router.put('/read/:conversationId', verifyToken, validateIdParam, ...)`. -/
def putReadRoute (jwtVerify : String → JwtResult) (s : Store) (authHeader : Option String)
    (params : RouteParams) : Except (Nat × String) PutResult × Store :=
  guarded jwtVerify authHeader s (fun userId => putRead s userId params)

/-! ## The live channel (`server.js`, lines 99-124) -/

/-- The rooms of the socket server: the pairs of a socket and a room it joined.  (The room every
socket has under its own socket id is never a user id.) -/
abbrev Rooms := List (Nat × Nat)

/-- The event `join`: `socket.join(userId)`. -/
def socketJoin (rooms : Rooms) (socket userId : Nat) : Rooms :=
  if (socket, userId) ∈ rooms then rooms else rooms ++ [(socket, userId)]

/-- The sockets in a room. -/
def socketsIn (rooms : Rooms) (room : Nat) : List Nat :=
  (rooms.filter (fun p => p.2 == room)).map (fun p => p.1)

/-- The payload `data` of the event `sendMessage`. -/
structure SendEvent where
  senderId : Nat
  receiverId : Nat
  text : String
deriving DecidableEq, Repr

/-- The object `message` the handler of `sendMessage` builds. -/
structure PushedMessage where
  id : Nat
  sender_id : Nat
  receiver_id : Nat
  text : String
  sent_at : Nat
deriving DecidableEq, Repr

/-- The call `io.to(room).emit('receiveMessage', message)`: one delivery to each socket of the
room. -/
def emitTo (rooms : Rooms) (room : Nat) (message : PushedMessage) : List (Nat × PushedMessage) :=
  (socketsIn rooms room).map (fun socket => (socket, message))

/-- The handler of the event `sendMessage`: the insert (no product), and in its callback, when
there is no error, the message with `sent_at: new Date()` (the clock `jsNow` of the server
process) emitted to the room of the receiver and then to the room of the sender.  The result is
the store afterwards and the deliveries made. -/
def sendMessageEvent (s : Store) (rooms : Rooms) (now jsNow : Nat) (d : SendEvent) :
    Store × List (Nat × PushedMessage) :=
  match insertMessage s now d.senderId d.receiverId none d.text with
  | none => (s, [])
  | some (lastID, s') =>
    let message : PushedMessage :=
      { id := lastID, sender_id := d.senderId, receiver_id := d.receiverId, text := d.text,
        sent_at := jsNow }
    (s', emitTo rooms d.receiverId message ++ emitTo rooms d.senderId message)

/-- The deliveries `POST /` makes to the sockets: `routes/messages.js` holds no reference to the
socket server `io`, and its handler ends with `res.status(201).json(...)`. -/
def postDeliveries (_rooms : Rooms) (_s : Store) (_now _senderId : Nat) (_b : MessageBody) :
    List (Nat × PushedMessage) :=
  []

/-! ## The operations of the messaging interface -/

/-- One operation of the messaging interface, with its arguments. -/
inductive Operation where
  | listMessages (e : Engine) (userId : Nat) (q : ListQuery)
  | listConversations (e : Engine) (userId : Nat)
  | post (now senderId : Nat) (b : MessageBody)
  | markRead (userId : Nat) (params : RouteParams)
  | liveSend (rooms : Rooms) (now jsNow : Nat) (d : SendEvent)

/-- The store after an operation.  The two listings run `SELECT` statements only. -/
def storeAfter (s : Store) : Operation → Store
  | .listMessages _ _ _ => s
  | .listConversations _ _ => s
  | .post now senderId b => (postMessage s now senderId b).2
  | .markRead userId params => (putRead s userId params).2
  | .liveSend rooms now jsNow d => (sendMessageEvent s rooms now jsNow d).1

/-- The store after a sequence of operations, run one after the other. -/
def storeAfterAll (s : Store) (ops : List Operation) : Store :=
  ops.foldl storeAfter s

/-! ## `sanitizeString` (`middleware/security.js`, lines 77-86) -/

/-- The call `str.replace(re, '')` with a global regular expression that matches no empty text:
the text is scanned from the left; where `re` matches, the match is removed and the scan goes on
after it.  `matchLength` gives the length of the match of `re` that starts at the head of its
argument; `skip` counts the characters of the current match still to remove. -/
def removeMatches (matchLength : List Char → Option Nat) : Nat → List Char → List Char
  | _, [] => []
  | skip + 1, _ :: cs => removeMatches matchLength skip cs
  | 0, c :: cs =>
    match matchLength (c :: cs) with
    | some (n + 1) => removeMatches matchLength n cs
    | _ => c :: removeMatches matchLength 0 cs

/-- The index of the first `>` of a text. -/
def firstGt : List Char → Option Nat
  | [] => none
  | c :: cs => if c = '>' then some 0 else (firstGt cs).map (fun i => i + 1)

/-- The match of `<[^>]*>` at the head of a text: a `<`, then everything up to the first `>`. -/
def tagMatchLength (l : List Char) : Option Nat :=
  match l with
  | c :: cs => if c = '<' then (firstGt cs).map (fun i => i + 2) else none
  | [] => none

/-- A character of the class `\w`. -/
def isWordChar (c : Char) : Bool :=
  c.isAlphanum || c == '_'

/-- Whether the text starts with `pat`, letters compared without case (flag `i`); `pat` is in
lower case. -/
def startsWithNoCase (pat : List Char) (l : List Char) : Bool :=
  (l.take pat.length).map Char.toLower == pat

/-- The index of the first `</script>` of a text. -/
def firstScriptEnd : List Char → Option Nat
  | [] => none
  | c :: cs =>
    if startsWithNoCase "</script>".data (c :: cs) then some 0
    else (firstScriptEnd cs).map (fun i => i + 1)

/-- The match of `<script\b[^<]*(?:(?!<\/script>)<[^<]*)*<\/script>` (flag `i`) at the head of a
text: `<script`, a word boundary, then everything up to and including the first `</script>`. -/
def scriptMatchLength (l : List Char) : Option Nat :=
  if startsWithNoCase "<script".data l &&
      (match l.drop 7 with
        | c :: _ => !isWordChar c
        | [] => true) then
    (firstScriptEnd (l.drop 7)).map (fun i => 7 + i + 9)
  else none

/-- The sanitizer of string inputs: the two `replace` calls, then `trim()`. -/
def sanitizeString (str : String) : String :=
  String.mk ((((removeMatches tagMatchLength 0
    (removeMatches scriptMatchLength 0 str.data)).dropWhile jsIsSpace).reverse.dropWhile
      jsIsSpace).reverse)

/-! ## `errorHandler` (`middleware/errorHandler.js`, lines 30-87) -/

/-- The error object `err`, with the properties the handler reads. -/
structure AppError where
  name : String
  message : String
  stack : String
  errors : List String
  code : Option String
  statusCode : Option Nat
  status : Option Nat
deriving DecidableEq, Repr

/-- The JSON body of the response of `errorHandler`; `none` is a property that is not there. -/
structure ErrorBody where
  error : String
  message : String
  details : Option (List String)
  stack : Option String
deriving DecidableEq, Repr

/-- The value `a || b || 500` on status codes: an absent code and `0` are falsy. -/
def firstTruthyStatus (a b : Option Nat) : Nat :=
  match a with
  | some (n + 1) => n + 1
  | _ =>
    match b with
    | some (n + 1) => n + 1
    | _ => 500

/-- The function `errorHandler`: the status and the body it sends; `nodeEnv` is
`process.env.NODE_ENV`. -/
def errorHandler (nodeEnv : Option String) (err : AppError) : Nat × ErrorBody :=
  let isDevelopment := decide (nodeEnv = some "development")
  if err.name = "ValidationError" then
    (400, { error := "Validation Error", message := err.message,
            details := if isDevelopment then some err.errors else none, stack := none })
  else if err.name = "UnauthorizedError" then
    (401, { error := "Unauthorized", message := "Invalid or missing authentication token",
            details := none, stack := none })
  else if err.code = some "SQLITE_CONSTRAINT" then
    (400, { error := "Database Constraint Error", message := "A database constraint was violated",
            details := none, stack := none })
  else if err.code = some "ENOENT" then
    (404, { error := "File Not Found", message := "The requested file was not found",
            details := none, stack := none })
  else
    (firstTruthyStatus err.statusCode err.status,
      { error := "Server Error",
        message := if isDevelopment then err.message else "Internal Server Error",
        details := none,
        stack := if isDevelopment then some err.stack else none })

/-! ## The words of the specification, for comparison -/

/-- The unread count as the specification words it: the number of messages from the peer to the
user whose `sent_at` is strictly greater than that of the most recent message from the user to
the peer; all of them when the user never sent one. -/
def unreadCountSpec (s : Store) (userId other : Nat) : Nat :=
  (s.messages.filter (fun m =>
    m.receiver_id == userId && m.sender_id == other &&
      afterWatermark m.sent_at
        (maxSentAt (s.messages.filter
          (fun x => x.sender_id == userId && x.receiver_id == other))))).length

/-- The last message of a conversation as the specification words it: the message with the
greatest `(sent_at, id)` among those exchanged between the two users. -/
def lastMessageSpec (s : Store) (userId other : Nat) : Option Message :=
  (s.messages.filter (betweenWhere userId other)).foldl
    (fun best m =>
      match best with
      | none => some m
      | some b =>
        if b.sent_at < m.sent_at ∨ (b.sent_at = m.sent_at ∧ b.id < m.id) then some m else some b)
    none

/-! ## Concrete stores -/

/-- Three users. -/
def sampleUsers : List User :=
  [⟨1, "ann", none, none⟩, ⟨2, "bob", none, none⟩, ⟨3, "cyd", none, none⟩]

/-- One message, from user 3 to user 1. -/
def thirdPartyStore : Store :=
  { users := sampleUsers
    products := []
    messages := [⟨1, 3, 1, none, "hi", 5⟩]
    messageSeq := 1 }

/-- One message, from user 2 to user 1, and none from user 1. -/
def neverRepliedStore : Store :=
  { users := sampleUsers
    products := []
    messages := [⟨1, 2, 1, none, "hi", 5⟩]
    messageSeq := 1 }

/-- User 1 exchanged messages with users 2 and 3. -/
def twoPeersStore : Store :=
  { users := sampleUsers
    products := []
    messages := [⟨1, 1, 2, none, "a", 1⟩, ⟨2, 2, 1, none, "b", 2⟩, ⟨3, 3, 1, none, "c", 3⟩]
    messageSeq := 3 }

/-- Two messages between users 1 and 2, sent at instants 1 and 2. -/
def twoMessageStore : Store :=
  { users := sampleUsers
    products := []
    messages := [⟨1, 1, 2, none, "first", 1⟩, ⟨2, 2, 1, none, "second", 2⟩]
    messageSeq := 2 }

/-- Two messages between users 1 and 2 with the same `sent_at`. -/
def tieStore : Store :=
  { users := sampleUsers
    products := []
    messages := [⟨1, 1, 2, none, "a", 5⟩, ⟨2, 2, 1, none, "b", 5⟩]
    messageSeq := 2 }

/-- Socket 10 joined as user 1, sockets 11 and 12 as user 2, socket 13 as user 3. -/
def sampleRooms : Rooms := [(10, 1), (11, 2), (12, 2), (13, 3)]

/-- A verifier that accepts the token `good` for user 1 and finds the token `old` expired. -/
def sampleJwtVerify (token : String) : JwtResult :=
  if token = "good" then .verified 1
  else if token = "old" then .expired
  else .rejected

/-- The three users and no message. -/
def noMessageStore : Store :=
  { users := sampleUsers
    products := []
    messages := []
    messageSeq := 0 }

/-- A text of exactly 1000 characters. -/
def thousandChars : String := String.mk (List.replicate 1000 'a')

/-- A text of 1001 characters: 1000 letters and the variation selector U+FE0F. -/
def thousandCharsAndSelector : String :=
  String.mk (List.replicate 1000 'a' ++ [Char.ofNat 0xFE0F])

/-- An error named `ValidationError` whose message tells of the storage. -/
def storageError : AppError :=
  { name := "ValidationError"
    message := "no such table: messages"
    stack := "at Statement.run"
    errors := ["messages.text"]
    code := none
    statusCode := none
    status := none }

/-! ## Lemmas on the engine and the tables -/

theorem stableEngine_lawful : stableEngine.Lawful := by
  intro α key l
  haveI : IsTotal α (fun a b => key b ≤ key a) := ⟨fun a b => le_total (key b) (key a)⟩
  haveI : IsTrans α (fun a b => key b ≤ key a) := ⟨fun a b c hab hbc => le_trans hbc hab⟩
  exact ⟨List.perm_insertionSort _ l, List.sorted_insertionSort _ l⟩

theorem lookupUser_id {s : Store} {i : Nat} {u : User} (h : lookupUser s i = some u) :
    u.id = i := by
  have := List.find?_some h
  simpa using this

theorem lookupProduct_id {s : Store} {i : Nat} {p : Product} (h : lookupProduct s i = some p) :
    p.id = i := by
  have := List.find?_some h
  simpa using this

theorem sqlLimitOffset_sublist {α : Type} (rows : List α) (limit offset : Int) :
    (sqlLimitOffset rows limit offset).Sublist rows := by
  unfold sqlLimitOffset
  split_ifs
  · exact List.drop_sublist _ _
  · exact (List.take_sublist _ _).trans (List.drop_sublist _ _)

/-! ## Lemmas on the insert -/

/-- The message the insert appends. -/
theorem nextMessageId_gt (s : Store) : ∀ m ∈ s.messages, m.id < nextMessageId s := by
  unfold nextMessageId
  generalize s.messageSeq = k
  induction s.messages with
  | nil => intro m hm; cases hm
  | cons a l ih =>
    intro m hm
    simp only [List.map_cons, List.foldr_cons]
    rcases List.mem_cons.mp hm with rfl | hm
    · have := le_max_left m.id (List.foldr max k (List.map (fun m => m.id) l))
      omega
    · have := ih m hm
      have := le_max_right a.id (List.foldr max k (List.map (fun m => m.id) l))
      omega

theorem joinRow_congr {s s' : Store} (hu : s'.users = s.users) (hp : s'.products = s.products)
    (m : Message) : joinRow s' m = joinRow s m := by
  simp [joinRow, lookupUser, lookupProduct, hu, hp]

theorem find_message_appended (s : Store) (m : Message) (h : m.id = nextMessageId s) :
    (s.messages ++ [m]).find? (fun x => x.id == m.id) = some m := by
  rw [List.find?_append]
  have hnone : s.messages.find? (fun x => x.id == m.id) = none := by
    rw [List.find?_eq_none]
    intro x hx
    have := nextMessageId_gt s x hx
    simp
    omega
  simp [hnone]

/-- When the foreign keys have their targets, the listing joins find a row for the new message,
and its `m.*` columns are the inserted values. -/
theorem joinRow_inserted (s : Store) (now senderId receiverId : Nat) (productId : Option Nat)
    (text : String) (h : foreignKeysOk s senderId receiverId productId = true) :
    ∃ row, joinRow s ⟨nextMessageId s, senderId, receiverId, productId, text, now⟩ = some row ∧
      row.m = ⟨nextMessageId s, senderId, receiverId, productId, text, now⟩ := by
  simp only [foreignKeysOk, Bool.and_eq_true] at h
  obtain ⟨⟨h1, h2⟩, _⟩ := h
  obtain ⟨su, hsu⟩ := Option.isSome_iff_exists.mp h1
  obtain ⟨ru, hru⟩ := Option.isSome_iff_exists.mp h2
  exact ⟨⟨⟨nextMessageId s, senderId, receiverId, productId, text, now⟩, su.username, ru.username,
    (productId.bind (lookupProduct s)).map (fun p => p.title)⟩, by simp only [joinRow, hsu, hru], rfl⟩

theorem insertAndRespond_of_foreignKeysOk (s : Store) (now senderId receiverId : Nat)
    (productId : Option Nat) (text : String) {row : MessageRow}
    (h : foreignKeysOk s senderId receiverId productId = true)
    (hrow : joinRow s ⟨nextMessageId s, senderId, receiverId, productId, text, now⟩ = some row) :
    insertAndRespond s now senderId receiverId productId text =
      (.created (some row),
        { s with
          messages := s.messages ++ [⟨nextMessageId s, senderId, receiverId, productId, text, now⟩]
          messageSeq := nextMessageId s }) := by
  unfold insertAndRespond insertMessage
  simp only [h, if_true]
  have hf := find_message_appended s ⟨nextMessageId s, senderId, receiverId, productId, text, now⟩ rfl
  simp only at hf
  simp only [hf, Option.bind]
  simp only [joinRow, lookupUser, lookupProduct] at hrow ⊢
  rw [hrow]

theorem insertAndRespond_created_inv {s s' : Store} {now senderId receiverId : Nat}
    {productId : Option Nat} {text : String} {row : MessageRow}
    (h : insertAndRespond s now senderId receiverId productId text = (.created (some row), s')) :
    foreignKeysOk s senderId receiverId productId = true ∧
      row.m = ⟨nextMessageId s, senderId, receiverId, productId, text, now⟩ ∧
      joinRow s row.m = some row ∧
      s' = { s with messages := s.messages ++ [row.m], messageSeq := nextMessageId s } := by
  by_cases hfk : foreignKeysOk s senderId receiverId productId = true
  · obtain ⟨row0, hrow0, hm0⟩ := joinRow_inserted s now senderId receiverId productId text hfk
    rw [insertAndRespond_of_foreignKeysOk s now senderId receiverId productId text hfk hrow0] at h
    simp only [Prod.mk.injEq, PostResult.created.injEq, Option.some.injEq] at h
    obtain ⟨h1, h2⟩ := h
    subst h1
    refine ⟨hfk, hm0, ?_, ?_⟩
    · rw [hm0]; exact hrow0
    · rw [hm0]; exact h2.symm
  · exfalso
    unfold insertAndRespond insertMessage at h
    simp [hfk] at h

theorem lookupUserInt_some {s : Store} {i : Int} {u : User} (h : lookupUserInt s i = some u) :
    i = (u.id : Int) := by
  unfold lookupUserInt at h
  split_ifs at h with h0
  have := lookupUser_id h
  omega

theorem lookupProductInt_some {s : Store} {i : Int} {p : Product}
    (h : lookupProductInt s i = some p) : i = (p.id : Int) := by
  unfold lookupProductInt at h
  split_ifs at h with h0
  have := lookupProduct_id h
  omega

/-- A `201` answer of `POST /` comes from one insert by the authenticated sender to the
receiver named in the body. -/
theorem postMessage_created_inv {s s' : Store} {now senderId : Nat} {b : MessageBody}
    {row : MessageRow} (h : postMessage s now senderId b = (.created (some row), s')) :
    ∃ (receiverId : Nat) (productId : Option Nat) (text : String),
      b.receiverId = some (receiverId : Int) ∧
      insertAndRespond s now senderId receiverId productId text = (.created (some row), s') := by
  unfold postMessage at h
  simp only at h
  split_ifs at h with hv
  swap
  · simp at h
  unfold sendHandler at h
  have hrec : (validateMessage b).1.receiverId = b.receiverId := rfl
  rw [hrec] at h
  cases hb : b.receiverId with
  | none => rw [hb] at h; simp at h
  | some ri =>
    rw [hb] at h
    simp only [Option.bind] at h
    cases hl : lookupUserInt s ri with
    | none => rw [hl] at h; simp at h
    | some receiver =>
      rw [hl] at h
      simp only at h
      have hri := lookupUserInt_some hl
      refine ⟨receiver.id, ?_⟩
      split at h
      · split_ifs at h
        · exact ⟨_, _, by rw [hri], h⟩
        · split at h
          · simp at h
          · exact ⟨_, _, by rw [hri], h⟩
      · exact ⟨_, _, by rw [hri], h⟩

/-! ## Lemmas on the listing -/

theorem joinRow_m {s : Store} {m : Message} {r : MessageRow} (h : joinRow s m = some r) :
    r.m = m := by
  unfold joinRow at h
  split at h
  · simp only [Option.some.injEq] at h
    rw [← h]
  · cases h

theorem mem_listRows {s : Store} {userId : Nat} {c : Option Nat} {r : MessageRow}
    (h : r ∈ listRows s userId c) :
    r.m ∈ s.messages ∧ listWhere userId c r.m = true ∧ joinRow s r.m = some r := by
  unfold listRows at h
  obtain ⟨m, hm, hj⟩ := List.mem_filterMap.mp h
  obtain ⟨hmem, hw⟩ := List.mem_filter.mp hm
  have := joinRow_m hj
  subst this
  exact ⟨hmem, hw, hj⟩

/-- The listing rows after one matching message is appended to `messages`. -/
theorem listRows_append {s s' : Store} {userId : Nat} {c : Option Nat} {row : MessageRow}
    (hu : s'.users = s.users) (hp : s'.products = s.products)
    (hm : s'.messages = s.messages ++ [row.m]) (hw : listWhere userId c row.m = true)
    (hj : joinRow s row.m = some row) :
    listRows s' userId c = listRows s userId c ++ [row] := by
  unfold listRows
  have hfun : joinRow s' = joinRow s := funext (joinRow_congr hu hp)
  rw [hm, hfun, List.filter_append, List.filterMap_append]
  simp [List.filter_cons, hw, hj]

/-- A row newer than all others is returned first by `ORDER BY sent_at DESC`, whatever the
engine does with ties. -/
theorem orderByDesc_newest_cons (e : Engine) (he : e.Lawful) {α : Type} (key : α → Nat)
    (rows : List α) (row : α) (hnew : ∀ r ∈ rows, key r < key row) :
    ∃ tail, e.orderByDesc key (rows ++ [row]) = row :: tail ∧ tail.Perm rows ∧
      tail.Pairwise (fun a b => key b ≤ key a) := by
  obtain ⟨hperm, hsorted⟩ := he α key (rows ++ [row])
  cases hL : e.orderByDesc key (rows ++ [row]) with
  | nil =>
    rw [hL] at hperm
    have := hperm.length_eq
    simp at this
  | cons a t =>
    rw [hL] at hperm hsorted
    have ha : a ∈ rows ++ [row] := hperm.subset (List.mem_cons_self a t)
    have hrow : row ∈ a :: t := hperm.symm.subset (by simp)
    have hat : a = row := by
      rcases List.mem_append.mp ha with ha | ha
      · have h1 := hnew a ha
        rcases List.mem_cons.mp hrow with h | h
        · exact h.symm
        · have h2 := (List.pairwise_cons.mp hsorted).1 row h
          omega
      · simpa using ha
    subst hat
    refine ⟨t, rfl, ?_, (List.pairwise_cons.mp hsorted).2⟩
    have h3 : (a :: t).Perm (a :: rows) := hperm.trans (List.perm_append_singleton a rows)
    exact h3.cons_inv

/-- Rows with pairwise distinct keys have one order under `ORDER BY key DESC`. -/
theorem sorted_perm_unique {α : Type} (key : α → Nat) {l₁ l₂ : List α} (hp : l₁.Perm l₂)
    (h₁ : l₁.Pairwise (fun a b => key b ≤ key a)) (h₂ : l₂.Pairwise (fun a b => key b ≤ key a))
    (hd : l₂.Pairwise (fun a b => key a ≠ key b)) : l₁ = l₂ := by
  haveI : IsAntisymm α (fun a b => key b < key a) :=
    ⟨fun a b hab hba => absurd hab (Nat.lt_asymm hba)⟩
  have hd₁ : l₁.Pairwise (fun a b => key a ≠ key b) :=
    (hp.pairwise_iff (fun h => Ne.symm h)).mpr hd
  have s₁ : l₁.Sorted (fun a b => key b < key a) :=
    (h₁.and hd₁).imp (fun h => lt_of_le_of_ne h.1 (Ne.symm h.2))
  have s₂ : l₂.Sorted (fun a b => key b < key a) :=
    (h₂.and hd).imp (fun h => lt_of_le_of_ne h.1 (Ne.symm h.2))
  exact List.eq_of_perm_of_sorted hp s₁ s₂

/-- With default paging, a row newer than all other matching rows closes the response. -/
theorem getMessages_getLast_of_newest (e : Engine) (he : e.Lawful) {s s' : Store} {userId : Nat}
    {c : Option Nat} {row : MessageRow}
    (hrows : listRows s' userId c = listRows s userId c ++ [row])
    (hnew : ∀ m ∈ s.messages, m.sent_at < row.m.sent_at) :
    (getMessages e s' userId ⟨none, none, c⟩).messages.getLast? = some row := by
  obtain ⟨tail, htail, -, -⟩ := orderByDesc_newest_cons e he (fun r : MessageRow => r.m.sent_at)
    (listRows s userId c) row (fun r hr => hnew r.m (mem_listRows hr).1)
  show (listPage e s' userId ⟨none, none, c⟩).reverse.getLast? = some row
  rw [List.getLast?_reverse]
  unfold listPage
  simp only [hrows, htail]
  simp [sqlLimitOffset, listLimit, listOffset]

/-! ## Lemmas on paging -/

/-- Page `k + 1` with limit `n`: the window of `n` rows at offset `k * n`. -/
theorem sqlLimitOffset_page {α : Type} (rows : List α) (n k : Nat) :
    sqlLimitOffset rows (n : Int) (((k : Int) + 1 - 1) * (n : Int)) = (rows.drop (k * n)).take n := by
  unfold sqlLimitOffset
  have h1 : ¬ ((n : Int) < 0) := by omega
  have h2 : (((k : Int) + 1 - 1) * (n : Int)).toNat = k * n := by
    have : ((k : Int) + 1 - 1) * (n : Int) = ((k * n : Nat) : Int) := by
      push_cast; ring
    rw [this, Int.toNat_ofNat]
  simp only [h1, if_false, h2, Int.toNat_ofNat]

/-- The windows of the first pages, put together, are the first rows of the listing. -/
theorem flatMap_pages_perm {α : Type} (rows : List α) (n pages : Nat) :
    ((List.range pages).flatMap (fun k => ((rows.drop (k * n)).take n).reverse)).Perm
      (rows.take (pages * n)) := by
  induction pages with
  | zero => simp
  | succ p ih =>
    rw [List.range_succ, List.flatMap_append, Nat.succ_mul, List.take_add]
    refine ih.append ?_
    simp only [List.flatMap_cons, List.flatMap_nil, List.append_nil]
    exact List.reverse_perm _

/-- The number of pages `⌈total / n⌉` covers `total` rows. -/
theorem le_pages_mul (total n : Nat) (hn : 1 ≤ n) : total ≤ (total + n - 1) / n * n := by
  have h1 := Nat.div_add_mod (total + n - 1) n
  have h2 := Nat.mod_lt (total + n - 1) (show n > 0 by omega)
  rw [Nat.mul_comm] at h1
  generalize (total + n - 1) / n * n = a at h1 ⊢
  generalize (total + n - 1) % n = r at h1 h2
  omega

theorem jsPages_pos (total n : Nat) (hn : 1 ≤ n) :
    jsPages total (n : Int) = some (((total + n - 1) / n : Nat) : Int) := by
  unfold jsPages
  have h0 : ¬ ((n : Int) = 0) := by omega
  have h1 : (0 : Int) < (n : Int) := by omega
  have h2 : (total : Int) + (n : Int) - 1 = ((total + n - 1 : Nat) : Int) := by omega
  simp only [h0, h1, if_false, if_true, h2, Int.natCast_div]

/-! ## Claims -/

/-- C1. At the store holding one message from user 3 to user 1, the history of user 1 with
peer 2 returns that message of the third user, and the reported total counts it. -/
theorem history_returns_third_party_message :
    (getMessages stableEngine thirdPartyStore 1 ⟨none, none, some 2⟩).messages.map
        (fun r => (r.m.id, r.m.sender_id, r.m.receiver_id)) = [(1, 3, 1)] ∧
      (getMessages stableEngine thirdPartyStore 1 ⟨none, none, some 2⟩).pagination.total = 1 := by
  decide

/-- C2. At the store holding one message from user 2 to user 1 and none from user 1, the
request `GET /api/messages/conversations` of user 1 returns no row: SQLite refuses the statement
(`no such column: other_user_id`) and the callback throws, where the specification has a row for
peer 2 with an unread count of 1. -/
theorem conversations_unread_count_not_returned :
    getConversations stableEngine neverRepliedStore 1 =
        .thrown "SQLITE_ERROR: no such column: other_user_id" ∧
      unreadCountSpec neverRepliedStore 1 2 = 1 := by
  decide

/-- C3. At `twoPeersStore`, where every sender and receiver is a known user and user 1 exchanged
messages with the peers 2 and 3, the request `GET /api/messages/conversations` of user 1 returns
no list, hence no row for either peer: the statement is refused and the callback throws. -/
theorem conversations_list_not_returned :
    (∀ m ∈ twoPeersStore.messages,
        (lookupUser twoPeersStore m.sender_id).isSome ∧
          (lookupUser twoPeersStore m.receiver_id).isSome) ∧
      (twoPeersStore.messages.map (otherUserId 1)).dedup = [2, 3] ∧
      getConversations stableEngine twoPeersStore 1 =
        .thrown "SQLITE_ERROR: no such column: other_user_id" ∧
      ∀ rows, getConversations stableEngine twoPeersStore 1 ≠ .rows rows := by
  refine ⟨by decide, by decide, by decide, ?_⟩
  intro rows h
  have h' : getConversations stableEngine twoPeersStore 1 =
      .thrown "SQLITE_ERROR: no such column: other_user_id" := by decide
  rw [h'] at h
  cases h

/-- C4 as stated fails: at `twoMessageStore` the page of user 1 lists the message sent at
instant 1 before the message sent at instant 2. -/
theorem listing_page_not_newest_first :
    (getMessages stableEngine twoMessageStore 1 ⟨none, none, none⟩).messages.map
        (fun r => r.m.sent_at) = [1, 2] ∧
      ¬ (getMessages stableEngine twoMessageStore 1 ⟨none, none, none⟩).messages.Pairwise
        (fun a b => b.m.sent_at ≤ a.m.sent_at) := by
  decide

/-- C4, amended. For every request to `GET /api/messages` the messages of the returned page are
ordered oldest-first: `sent_at` is non-decreasing from the first element to the last (the rows
are selected newest-first and reversed before they are sent). -/
theorem listing_page_oldest_first (e : Engine) (he : e.Lawful) (s : Store) (userId : Nat)
    (q : ListQuery) :
    (getMessages e s userId q).messages.Pairwise (fun a b => a.m.sent_at ≤ b.m.sent_at) := by
  show (listPage e s userId q).reverse.Pairwise _
  rw [List.pairwise_reverse]
  exact ((he _ _ _).2).sublist (sqlLimitOffset_sublist _ _ _)

/-- Witness of C4 amended: user 1 of `twoMessageStore` under the stable engine. -/
theorem listing_page_oldest_first_witness :
    stableEngine.Lawful ∧
      (getMessages stableEngine twoMessageStore 1 ⟨none, none, none⟩).messages.Pairwise
        (fun a b => a.m.sent_at ≤ b.m.sent_at) :=
  ⟨stableEngine_lawful,
    listing_page_oldest_first stableEngine stableEngine_lawful twoMessageStore 1 ⟨none, none, none⟩⟩

/-- C5 as stated fails: after user 1 sends a third message to user 2 at `twoMessageStore`, the
history of the pair starts with the oldest message (id 1); the new message (id 3) is its last
element. -/
theorem sent_message_not_first_in_history :
    (postMessage twoMessageStore 3 1 ⟨some 2, none, "third"⟩).1 =
        .created (some ⟨⟨3, 1, 2, none, "third", 3⟩, "ann", "bob", none⟩) ∧
      (getMessages stableEngine (postMessage twoMessageStore 3 1 ⟨some 2, none, "third"⟩).2 1
        ⟨none, none, some 2⟩).messages.map (fun r => r.m.id) = [1, 2, 3] := by
  decide

/-- C5, amended. For every store and every send answered with 201, when the store clock gives the
new message a `sent_at` later than that of every stored message, the new message is the last
element of the message list returned by an immediately following history request for the pair
with default paging, asked by the sender or by the receiver. -/
theorem sent_message_last_in_history (e : Engine) (he : e.Lawful) (s s' : Store)
    (now senderId : Nat) (b : MessageBody) (row : MessageRow)
    (hpost : postMessage s now senderId b = (.created (some row), s'))
    (hclock : ∀ m ∈ s.messages, m.sent_at < now) :
    row.m.sender_id = senderId ∧ b.receiverId = some (row.m.receiver_id : Int) ∧
      (getMessages e s' senderId ⟨none, none, some row.m.receiver_id⟩).messages.getLast? =
        some row ∧
      (getMessages e s' row.m.receiver_id ⟨none, none, some senderId⟩).messages.getLast? =
        some row := by
  obtain ⟨r, p, t, hb, hins⟩ := postMessage_created_inv hpost
  obtain ⟨-, hm, hj, hs'⟩ := insertAndRespond_created_inv hins
  have hsender : row.m.sender_id = senderId := by rw [hm]
  have hreceiver : row.m.receiver_id = r := by rw [hm]
  have hnew : ∀ m ∈ s.messages, m.sent_at < row.m.sent_at := by
    intro m hmem
    rw [hm]
    exact hclock m hmem
  have hlast : ∀ (viewer : Nat) (c : Option Nat), listWhere viewer c row.m = true →
      (getMessages e s' viewer ⟨none, none, c⟩).messages.getLast? = some row := by
    intro viewer c hw
    refine getMessages_getLast_of_newest e he ?_ hnew
    exact listRows_append (by rw [hs']) (by rw [hs']) (by rw [hs']) hw hj
  refine ⟨hsender, by rw [hreceiver]; exact hb, hlast _ _ ?_, hlast _ _ ?_⟩
  · simp [listWhere, hsender]
  · simp [listWhere]

/-- Witness of C5 amended: user 1 sends a third message to user 2 at `twoMessageStore`. -/
theorem sent_message_last_in_history_witness :
    stableEngine.Lawful ∧
      postMessage twoMessageStore 3 1 ⟨some 2, none, "third"⟩ =
        (.created (some ⟨⟨3, 1, 2, none, "third", 3⟩, "ann", "bob", none⟩),
          (postMessage twoMessageStore 3 1 ⟨some 2, none, "third"⟩).2) ∧
      (∀ m ∈ twoMessageStore.messages, m.sent_at < 3) ∧
      (getMessages stableEngine (postMessage twoMessageStore 3 1 ⟨some 2, none, "third"⟩).2 1
        ⟨none, none, some 2⟩).messages.getLast? =
          some ⟨⟨3, 1, 2, none, "third", 3⟩, "ann", "bob", none⟩ :=
  ⟨stableEngine_lawful, by decide, by decide,
    (sent_message_last_in_history stableEngine stableEngine_lawful twoMessageStore
      (postMessage twoMessageStore 3 1 ⟨some 2, none, "third"⟩).2 3 1 ⟨some 2, none, "third"⟩
      ⟨⟨3, 1, 2, none, "third", 3⟩, "ann", "bob", none⟩ (by decide) (by decide)).2.2.1⟩

/-- C6 as stated fails: at `twoMessageStore` with limit 1, page 1 of user 1 is the message with
id 2; after user 1 sends one more message, page 2 is the message with id 2 again. -/
theorem offset_paging_repeats_after_insert :
    (getMessages stableEngine twoMessageStore 1 ⟨some 1, some 1, none⟩).messages.map
        (fun r => r.m.id) = [2] ∧
      (getMessages stableEngine (postMessage twoMessageStore 3 1 ⟨some 2, none, "third"⟩).2 1
        ⟨some 2, some 1, none⟩).messages.map (fun r => r.m.id) = [2] := by
  decide

/-- C6, amended. Paging is by offset. For every store whose matching rows have pairwise different
`sent_at`, every user and limit `n ≥ 1`: if page 1 is fetched, then a message that belongs to the
listing and is newer than every stored message is inserted, and then page 2 is fetched, page 2 is
the window of `n` rows of the original listing that starts at offset `n - 1` instead of `n`.  No
message of the original snapshot is skipped, and when the snapshot has at least `n` matching rows
the oldest item of page 1 is returned again as the newest item of page 2. -/
theorem page_two_after_insert_shifted (e₁ e₂ : Engine) (he₁ : e₁.Lawful) (he₂ : e₂.Lawful)
    (s s' : Store) (now senderId receiverId : Nat) (productId : Option Nat) (text : String)
    (lastID : Nat) (userId : Nat) (c : Option Nat) (n : Nat) (hn : 1 ≤ n)
    (hinsert : insertMessage s now senderId receiverId productId text = some (lastID, s'))
    (hlisted : listWhere userId c ⟨lastID, senderId, receiverId, productId, text, now⟩ = true)
    (hclock : ∀ m ∈ s.messages, m.sent_at < now)
    (hdistinct : (listRows s userId c).Pairwise (fun a b => a.m.sent_at ≠ b.m.sent_at)) :
    (getMessages e₂ s' userId ⟨some 2, some (n : Int), c⟩).messages =
        (sqlLimitOffset (e₁.orderByDesc (fun r => r.m.sent_at) (listRows s userId c))
          (n : Int) ((n : Int) - 1)).reverse ∧
      (n ≤ (listRows s userId c).length →
        ∃ r, (getMessages e₁ s userId ⟨some 1, some (n : Int), c⟩).messages.head? = some r ∧
          (getMessages e₂ s' userId ⟨some 2, some (n : Int), c⟩).messages.getLast? = some r) := by
  -- the inserted row
  have hfk : foreignKeysOk s senderId receiverId productId = true := by
    by_contra hne
    simp [insertMessage, hne] at hinsert
  simp only [insertMessage, hfk, if_true, Option.some.injEq, Prod.mk.injEq] at hinsert
  obtain ⟨hid, hs'⟩ := hinsert
  subst hid
  obtain ⟨row, hj, hm⟩ := joinRow_inserted s now senderId receiverId productId text hfk
  have hrows : listRows s' userId c = listRows s userId c ++ [row] := by
    refine listRows_append (by rw [← hs']) (by rw [← hs']) (by rw [← hs', hm]) (by rw [hm]; exact hlisted)
      (by rw [hm]; exact hj)
  -- the two orders
  obtain ⟨tail, htail, hperm, hsorted⟩ := orderByDesc_newest_cons e₂ he₂
    (fun r : MessageRow => r.m.sent_at) (listRows s userId c) row
    (fun r hr => by show r.m.sent_at < row.m.sent_at; rw [hm]; exact hclock r.m (mem_listRows hr).1)
  obtain ⟨hp₁, hs₁⟩ := he₁ _ (fun r : MessageRow => r.m.sent_at) (listRows s userId c)
  have htl : tail = e₁.orderByDesc (fun r : MessageRow => r.m.sent_at) (listRows s userId c) :=
    sorted_perm_unique _ (hperm.trans hp₁.symm) hsorted hs₁
      ((hp₁.pairwise_iff (fun h => Ne.symm h)).mpr hdistinct)
  obtain ⟨k, rfl⟩ : ∃ k, n = k + 1 := ⟨n - 1, by omega⟩
  have hpage2 : (getMessages e₂ s' userId ⟨some 2, some ((k + 1 : Nat) : Int), c⟩).messages =
      (sqlLimitOffset (e₁.orderByDesc (fun r => r.m.sent_at) (listRows s userId c))
        ((k + 1 : Nat) : Int) (((k + 1 : Nat) : Int) - 1)).reverse := by
    show (listPage e₂ s' userId ⟨some 2, some ((k + 1 : Nat) : Int), c⟩).reverse = _
    unfold listPage
    simp only [listLimit, listOffset, Option.getD_some, hrows, htail, htl]
    have h1 : ((2 : Int) - 1) * ((k + 1 : Nat) : Int) = ((k + 1 : Nat) : Int) := by omega
    have h2 : ¬ (((k + 1 : Nat) : Int) < 0) := by omega
    have h3 : (((k + 1 : Nat) : Int) - 1).toNat = k := by omega
    simp only [sqlLimitOffset, h1, h2, h3, if_false, Int.toNat_ofNat, List.drop_succ_cons]
  refine ⟨hpage2, fun hlen => ?_⟩
  have hk : k < (e₁.orderByDesc (fun r : MessageRow => r.m.sent_at) (listRows s userId c)).length := by
    rw [hp₁.length_eq]; omega
  refine ⟨(e₁.orderByDesc (fun r : MessageRow => r.m.sent_at) (listRows s userId c))[k], ?_, ?_⟩
  · show (listPage e₁ s userId ⟨some 1, some ((k + 1 : Nat) : Int), c⟩).reverse.head? = _
    unfold listPage
    have h2 : ¬ (((k + 1 : Nat) : Int) < 0) := by omega
    simp only [listLimit, listOffset, Option.getD_some, sqlLimitOffset, h2, if_false,
      Int.toNat_ofNat, List.head?_reverse]
    simp only [sub_self, zero_mul, Int.toNat_zero, List.drop_zero]
    rw [List.take_succ, List.getElem?_eq_getElem hk]
    exact List.getLast?_concat _
  · rw [hpage2]
    have h2 : ¬ (((k + 1 : Nat) : Int) < 0) := by omega
    have h3 : (((k + 1 : Nat) : Int) - 1).toNat = k := by omega
    simp only [sqlLimitOffset, h2, h3, if_false, Int.toNat_ofNat, List.getLast?_reverse]
    rw [List.head?_take, if_neg (by omega), List.head?_drop, List.getElem?_eq_getElem hk]

/-- Witness of C6 amended: at `twoMessageStore` user 1 reads page 1 with limit 1, a third message
is inserted, and page 2 is read. -/
theorem page_two_after_insert_shifted_witness :
    stableEngine.Lawful ∧ 1 ≤ 1 ∧
      insertMessage twoMessageStore 3 1 2 none "third" =
        some (3, (postMessage twoMessageStore 3 1 ⟨some 2, none, "third"⟩).2) ∧
      listWhere 1 none ⟨3, 1, 2, none, "third", 3⟩ = true ∧
      (∀ m ∈ twoMessageStore.messages, m.sent_at < 3) ∧
      (listRows twoMessageStore 1 none).Pairwise (fun a b => a.m.sent_at ≠ b.m.sent_at) ∧
      (getMessages stableEngine (postMessage twoMessageStore 3 1 ⟨some 2, none, "third"⟩).2 1
          ⟨some 2, some ((1 : Nat) : Int), none⟩).messages =
        (sqlLimitOffset (stableEngine.orderByDesc (fun r => r.m.sent_at)
          (listRows twoMessageStore 1 none)) ((1 : Nat) : Int) (((1 : Nat) : Int) - 1)).reverse :=
  ⟨stableEngine_lawful, by decide, by decide, by decide, by decide, by decide,
    (page_two_after_insert_shifted stableEngine stableEngine stableEngine_lawful stableEngine_lawful
      twoMessageStore (postMessage twoMessageStore 3 1 ⟨some 2, none, "third"⟩).2 3 1 2 none "third"
      3 1 none 1 (by decide) (by decide) (by decide) (by decide) (by decide)).1⟩

/-! ## Lemmas on the numbers of JavaScript and on the answer of `GET /` -/

theorem jsNumber_of_lt (i : Int) (h : i.natAbs < 2 ^ 53) : jsNumber i = some i := by
  unfold jsNumber
  simp only [h, if_true]

theorem le_roundedSignificand (a e : Nat) : a / 2 ^ e ≤ roundedSignificand a e := by
  unfold roundedSignificand
  simp only
  split_ifs <;> omega

theorem bitLengthAux_spec (fuel : Nat) : ∀ a : Nat, a < 2 ^ fuel →
    a < 2 ^ bitLengthAux fuel a ∧ (a ≠ 0 → 2 ^ (bitLengthAux fuel a - 1) ≤ a) := by
  induction fuel with
  | zero =>
    intro a ha
    have h0 : a = 0 := by simpa using ha
    subst h0
    exact ⟨by simp [bitLengthAux], fun h => absurd rfl h⟩
  | succ fuel ih =>
    intro a ha
    by_cases h0 : a = 0
    · subst h0
      exact ⟨by simp [bitLengthAux], fun h => absurd rfl h⟩
    · have hb : bitLengthAux (fuel + 1) a = bitLengthAux fuel (a / 2) + 1 := by
        rw [bitLengthAux, if_neg h0]
      have hhalf : a / 2 < 2 ^ fuel := by
        rw [pow_succ] at ha
        omega
      obtain ⟨h1, h2⟩ := ih (a / 2) hhalf
      rw [hb, Nat.add_sub_cancel]
      refine ⟨?_, fun _ => ?_⟩
      · rw [pow_succ]
        omega
      · by_cases hz : a / 2 = 0
        · have hbz : bitLengthAux fuel (a / 2) = 0 := by
            rw [hz]
            cases fuel <;> simp [bitLengthAux]
          rw [hbz]
          simp only [pow_zero]
          omega
        · have h3 := h2 hz
          have hpos : 1 ≤ bitLengthAux fuel (a / 2) := by
            by_contra hlt
            have hbz : bitLengthAux fuel (a / 2) = 0 := by omega
            rw [hbz] at h1
            simp only [pow_zero] at h1
            omega
          have hsplit : 2 ^ bitLengthAux fuel (a / 2) =
              2 ^ (bitLengthAux fuel (a / 2) - 1) * 2 := by
            rw [← pow_succ]
            congr 1
            omega
          rw [hsplit]
          omega

theorem bitLength_spec (a : Nat) (h0 : a ≠ 0) :
    a < 2 ^ bitLength a ∧ 2 ^ (bitLength a - 1) ≤ a := by
  obtain ⟨h1, h2⟩ := bitLengthAux_spec a a (Nat.lt_two_pow a)
  exact ⟨h1, h2 h0⟩

/-- A limit of 53 to 63 bits is a number of at least `2 ^ 53`. -/
theorem jsNumber_of_ge (n : Nat) (h1 : 2 ^ 53 ≤ n) (h2 : n < 2 ^ 63) :
    ∃ n' : Nat, jsNumber (n : Int) = some (n' : Int) ∧ 2 ^ 53 ≤ n' := by
  have hn0 : n ≠ 0 := by omega
  obtain ⟨hlt, hpow⟩ := bitLength_spec n hn0
  have hlog1 : 54 ≤ bitLength n := by
    by_contra hle
    have : 2 ^ bitLength n ≤ 2 ^ 53 := Nat.pow_le_pow_right (by decide) (by omega)
    omega
  have hlog2 : bitLength n ≤ 63 := by
    by_contra hgt
    have : 2 ^ 63 ≤ 2 ^ (bitLength n - 1) := Nat.pow_le_pow_right (by decide) (by omega)
    omega
  have hq : 2 ^ 52 ≤ n / 2 ^ (bitLength n - 53) := by
    rw [Nat.le_div_iff_mul_le (Nat.two_pow_pos _)]
    calc 2 ^ 52 * 2 ^ (bitLength n - 53) = 2 ^ (52 + (bitLength n - 53)) := (pow_add 2 _ _).symm
      _ = 2 ^ (bitLength n - 1) := by congr 1; omega
      _ ≤ n := hpow
  have hq' := le_trans hq (le_roundedSignificand n (bitLength n - 53))
  have he : 2 ^ 1 ≤ 2 ^ (bitLength n - 53) := Nat.pow_le_pow_right (by decide) (by omega)
  refine ⟨roundedSignificand n (bitLength n - 53) * 2 ^ (bitLength n - 53), ?_, ?_⟩
  · unfold jsNumber
    simp only [Int.natAbs_ofNat]
    rw [if_neg (by omega), if_neg (by omega), Int.sign_eq_one_of_pos (by omega), one_mul]
  · calc 2 ^ 53 = 2 ^ 52 * 2 ^ 1 := by norm_num
      _ ≤ roundedSignificand n (bitLength n - 53) * 2 ^ (bitLength n - 53) :=
        Nat.mul_le_mul hq' he

/-- The number `limit` of the handler for a limit SQLite takes, with fewer than `2 ^ 53` rows:
`pages` and the offsets of the pages are those of the exact limit. -/
theorem jsNumber_limit (n total : Nat) (hn : 1 ≤ n) (hn63 : n < 2 ^ 63) (htotal : total < 2 ^ 53) :
    ∃ n' : Nat, jsNumber (n : Int) = some (n' : Int) ∧
      jsPages total (n' : Int) = some (((total + n - 1) / n : Nat) : Int) ∧
      ∀ k, k < (total + n - 1) / n → k * n' = k * n := by
  by_cases hlt : n < 2 ^ 53
  · exact ⟨n, jsNumber_of_lt _ (by rw [Int.natAbs_ofNat]; exact hlt), jsPages_pos total n hn,
      fun _ _ => rfl⟩
  · obtain ⟨n', hn', hge⟩ := jsNumber_of_ge n (by omega) hn63
    have hdiv : (total + n' - 1) / n' = (total + n - 1) / n ∧ (total + n - 1) / n ≤ 1 := by
      rcases Nat.eq_zero_or_pos total with h0 | hpos
      · subst h0
        rw [Nat.div_eq_of_lt (by omega), Nat.div_eq_of_lt (by omega)]
        exact ⟨rfl, by omega⟩
      · rw [Nat.div_eq_of_lt_le (k := 1) (by omega) (by omega),
          Nat.div_eq_of_lt_le (k := 1) (by omega) (by omega)]
        exact ⟨rfl, le_refl 1⟩
    refine ⟨n', hn', ?_, ?_⟩
    · rw [jsPages_pos total n' (by omega), hdiv.1]
    · intro k hk
      have : k = 0 := by omega
      rw [this, Nat.zero_mul, Nat.zero_mul]

theorem sqlLimitOffset_nat {α : Type} (rows : List α) (n m : Nat) :
    sqlLimitOffset rows (n : Int) ((m : Nat) : Int) = (rows.drop m).take n := by
  unfold sqlLimitOffset
  have h1 : ¬ ((n : Int) < 0) := by omega
  simp only [h1, if_false, Int.toNat_ofNat]

theorem sqliteTakesLimit_of_lt (n : Nat) (h : n < 2 ^ 63) : sqliteTakesLimit (n : Int) = true := by
  unfold sqliteTakesLimit
  rw [decide_eq_true_eq]
  have h63 : (2 : Int) ^ 63 = 9223372036854775808 := by norm_num
  have h63n : (2 : Nat) ^ 63 = 9223372036854775808 := by norm_num
  rw [h63]
  rw [h63n] at h
  omega

theorem sqliteTakesOffset_of_lt (m : Nat) (h : m < 2 ^ 53) :
    sqliteTakesOffset (m : Int) = true := by
  unfold sqliteTakesOffset
  rw [decide_eq_true_eq]
  have h63 : (2 : Int) ^ 63 = 9223372036854775808 := by norm_num
  have h53n : (2 : Nat) ^ 53 = 9007199254740992 := by norm_num
  rw [h63]
  rw [h53n] at h
  omega

/-- The answer of the route once the numbers of the handler and the checks of SQLite are
known. -/
theorem getMessagesAnswer_of_numbers (e : Engine) (s : Store) (userId : Nat) (c : Option Nat)
    (page limit page' limit' pageBefore offset : Int)
    (h1 : jsNumber page = some page') (h2 : jsNumber limit = some limit')
    (h3 : jsNumber (page' - 1) = some pageBefore)
    (h4 : jsNumber (pageBefore * limit') = some offset)
    (hlim : sqliteTakesLimit limit = true) (hofs : sqliteTakesOffset offset = true) :
    getMessagesAnswer e s userId ⟨some page, some limit, c⟩ =
      some
        { messages :=
            (sqlLimitOffset (e.orderByDesc (fun r => r.m.sent_at) (listRows s userId c))
              limit offset).reverse
          pagination :=
            { page := page'
              limit := limit'
              total := listTotal s userId c
              pages := jsPages (listTotal s userId c) limit' } } := by
  unfold getMessagesAnswer jsOffset
  simp only [Option.getD_some, listLimit, h1, h2, Option.some_bind, h3, h4, hlim, hofs,
    Bool.and_self, if_true]

/-- Where page, limit and offset are below `2 ^ 53` in size the route answers, and its answer is
the response in exact integers. -/
theorem getMessagesAnswer_exact (e : Engine) (s : Store) (userId : Nat) (q : ListQuery)
    (hpage : (q.page.getD 1).natAbs < 2 ^ 53) (hlimit : (listLimit q).natAbs < 2 ^ 53)
    (hbefore : (q.page.getD 1 - 1).natAbs < 2 ^ 53) (hoffset : (listOffset q).natAbs < 2 ^ 53) :
    getMessagesAnswer e s userId q = some (getMessages e s userId q) := by
  have h53 : (2 : Nat) ^ 53 = 9007199254740992 := by norm_num
  have h63 : (2 : Int) ^ 63 = 9223372036854775808 := by norm_num
  have hlim : sqliteTakesLimit (listLimit q) = true := by
    unfold sqliteTakesLimit
    rw [decide_eq_true_eq, h63]
    rw [h53] at hlimit
    omega
  have hofs : sqliteTakesOffset (listOffset q) = true := by
    unfold sqliteTakesOffset
    rw [decide_eq_true_eq, h63]
    rw [h53] at hoffset
    omega
  have h4 : jsNumber ((q.page.getD 1 - 1) * listLimit q) = some (listOffset q) :=
    jsNumber_of_lt _ hoffset
  unfold getMessagesAnswer jsOffset
  simp only [jsNumber_of_lt _ hpage, jsNumber_of_lt _ hlimit, jsNumber_of_lt _ hbefore,
    Option.some_bind, h4, hlim, hofs, Bool.and_self, if_true]
  rfl

/-- Page `k + 1` of a listing with a limit SQLite takes is answered, with the window of `n` rows
at offset `k * n` and with the exact number of pages. -/
theorem getMessagesAnswer_page (e : Engine) (s : Store) (userId : Nat) (c : Option Nat)
    (n k : Nat) (hn : 1 ≤ n) (hn63 : n < 2 ^ 63) (htotal : listTotal s userId c < 2 ^ 53)
    (hk : k = 0 ∨ k < (listTotal s userId c + n - 1) / n) :
    ∃ r, getMessagesAnswer e s userId ⟨some ((k : Int) + 1), some (n : Int), c⟩ = some r ∧
      r.messages =
        (((e.orderByDesc (fun r : MessageRow => r.m.sent_at) (listRows s userId c)).drop
          (k * n)).take n).reverse ∧
      r.pagination.pages = some (((listTotal s userId c + n - 1) / n : Nat) : Int) := by
  obtain ⟨n', hn', hpages, hmul⟩ := jsNumber_limit n (listTotal s userId c) hn hn63 htotal
  have hkn' : k * n' = k * n := by
    rcases hk with h0 | hk
    · rw [h0, Nat.zero_mul, Nat.zero_mul]
    · exact hmul k hk
  have hoff : k = 0 ∨ k * n < listTotal s userId c := by
    rcases hk with h0 | hk
    · exact Or.inl h0
    · right
      have h1 : (k + 1) * n ≤ listTotal s userId c + n - 1 :=
        (Nat.le_div_iff_mul_le (by omega)).mp hk
      rw [Nat.add_mul, Nat.one_mul] at h1
      omega
  have hkle : k ≤ k * n := Nat.le_mul_of_pos_right k (by omega)
  have hk53 : k + 1 < 2 ^ 53 := by
    rcases hoff with h0 | h
    · rw [h0]; norm_num
    · omega
  have hkn53 : k * n < 2 ^ 53 := by
    rcases hoff with h0 | h
    · rw [h0, Nat.zero_mul]; norm_num
    · omega
  have h1 : jsNumber ((k : Int) + 1) = some ((k : Int) + 1) :=
    jsNumber_of_lt _ (by
      have : ((k : Int) + 1).natAbs = k + 1 := by
        rw [show (k : Int) + 1 = ((k + 1 : Nat) : Int) by push_cast; rfl, Int.natAbs_ofNat]
      rw [this]; exact hk53)
  have h2 : jsNumber ((k : Int) + 1 - 1) = some (k : Int) := by
    rw [add_sub_cancel_right]
    exact jsNumber_of_lt _ (by rw [Int.natAbs_ofNat]; omega)
  have h3 : jsNumber ((k : Int) * (n' : Int)) = some ((k * n : Nat) : Int) := by
    rw [show (k : Int) * (n' : Int) = ((k * n : Nat) : Int) by rw [← hkn']; push_cast; rfl]
    exact jsNumber_of_lt _ (by rw [Int.natAbs_ofNat]; exact hkn53)
  have hlim : sqliteTakesLimit (n : Int) = true := sqliteTakesLimit_of_lt n hn63
  have hofs : sqliteTakesOffset ((k * n : Nat) : Int) = true :=
    sqliteTakesOffset_of_lt (k * n) hkn53
  have hans := getMessagesAnswer_of_numbers e s userId c ((k : Int) + 1) (n : Int)
    ((k : Int) + 1) (n' : Int) (k : Int) ((k * n : Nat) : Int) h1 hn' h2 h3 hlim hofs
  refine ⟨_, hans, ?_, hpages⟩
  show (sqlLimitOffset _ (n : Int) ((k * n : Nat) : Int)).reverse = _
  rw [sqlLimitOffset_nat]

theorem flatMap_congr_mem {α β : Type} {l : List α} {f g : α → List β}
    (h : ∀ a ∈ l, f a = g a) : l.flatMap f = l.flatMap g := by
  induction l with
  | nil => rfl
  | cons a l ih =>
    rw [List.flatMap_cons, List.flatMap_cons, h a (List.mem_cons_self a l),
      ih (fun b hb => h b (List.mem_cons_of_mem a hb))]

/-- The listing answers a limit above the 53 bits of a number with that limit rounded: a limit
of `2 ^ 53 + 1` is reported as `2 ^ 53`. -/
theorem getMessagesAnswer_limit_rounded :
    (getMessagesAnswer stableEngine twoMessageStore 1
        ⟨some 1, some 9007199254740993, none⟩).map (fun r => (r.pagination.limit, r.messages.length)) =
      some (9007199254740992, 2) := by
  decide

/-- C7 as stated fails: at `twoMessageStore`, where no two messages share `sent_at`, page 1 of user 1
with the limit `2 ^ 63` gets no response (the store refuses the limit and the callback throws),
so no page holds the two messages the listing selects. -/
theorem limit_beyond_store_integers_gets_no_page :
    (listRows twoMessageStore 1 none).Pairwise (fun a b => a.m.sent_at ≠ b.m.sent_at) ∧
      (listRows twoMessageStore 1 none).length = 2 ∧
      (1 : Int) ≤ 9223372036854775808 ∧
      getMessagesAnswer stableEngine twoMessageStore 1
        ⟨some 1, some 9223372036854775808, none⟩ = none := by
  decide

/-- C7, amended. For every store whose matching rows have pairwise different `sent_at` and number
fewer than `2 ^ 53`, every user and every limit `n` with `1 ≤ n < 2 ^ 63` (a limit the store
takes), page 1 of `GET /api/messages` is answered with `pagination.pages`, each of the pages
`1, ..., pagination.pages` is answered, and these pages, put together, hold every row the
listing selects exactly once, whichever order each request gives to ties. -/
theorem pages_cover_listing_once (e : Nat → Engine) (he : ∀ k, (e k).Lawful) (s : Store)
    (userId : Nat) (c : Option Nat) (n : Nat) (hn : 1 ≤ n) (hn63 : n < 2 ^ 63)
    (htotal : listTotal s userId c < 2 ^ 53)
    (hdistinct : (listRows s userId c).Pairwise (fun a b => a.m.sent_at ≠ b.m.sent_at)) :
    ∃ pages : Nat,
      (∃ r, getMessagesAnswer (e 1) s userId ⟨some 1, some (n : Int), c⟩ = some r ∧
        r.pagination.pages = some (pages : Int)) ∧
      (∀ k < pages,
        (getMessagesAnswer (e (k + 1)) s userId
          ⟨some ((k : Int) + 1), some (n : Int), c⟩).isSome) ∧
      ((List.range pages).flatMap (fun k =>
        ((getMessagesAnswer (e (k + 1)) s userId
          ⟨some ((k : Int) + 1), some (n : Int), c⟩).map (fun r => r.messages)).getD [])).Perm
            (listRows s userId c) := by
  refine ⟨(listTotal s userId c + n - 1) / n, ?_, ?_, ?_⟩
  · obtain ⟨r, hr, -, hp⟩ :=
      getMessagesAnswer_page (e 1) s userId c n 0 hn hn63 htotal (Or.inl rfl)
    exact ⟨r, by simpa using hr, hp⟩
  · intro k hk
    obtain ⟨r, hr, -, -⟩ :=
      getMessagesAnswer_page (e (k + 1)) s userId c n k hn hn63 htotal (Or.inr hk)
    rw [hr]
    rfl
  · have hpage : ∀ k ∈ List.range ((listTotal s userId c + n - 1) / n),
        ((getMessagesAnswer (e (k + 1)) s userId
          ⟨some ((k : Int) + 1), some (n : Int), c⟩).map (fun r => r.messages)).getD [] =
        ((((e 0).orderByDesc (fun r : MessageRow => r.m.sent_at) (listRows s userId c)).drop
          (k * n)).take n).reverse := by
      intro k hk
      obtain ⟨r, hr, hm, -⟩ :=
        getMessagesAnswer_page (e (k + 1)) s userId c n k hn hn63 htotal
          (Or.inr (List.mem_range.mp hk))
      have hsame : (e (k + 1)).orderByDesc (fun r : MessageRow => r.m.sent_at)
          (listRows s userId c) =
          (e 0).orderByDesc (fun r : MessageRow => r.m.sent_at) (listRows s userId c) := by
        obtain ⟨hp1, hs1⟩ := he (k + 1) _ (fun r : MessageRow => r.m.sent_at) (listRows s userId c)
        obtain ⟨hp0, hs0⟩ := he 0 _ (fun r : MessageRow => r.m.sent_at) (listRows s userId c)
        exact sorted_perm_unique _ (hp1.trans hp0.symm) hs1 hs0
          ((hp0.pairwise_iff (fun h => Ne.symm h)).mpr hdistinct)
      rw [hr, Option.map_some', Option.getD_some, hm, hsame]
    rw [flatMap_congr_mem hpage]
    refine (flatMap_pages_perm _ n _).trans ?_
    obtain ⟨hp0, -⟩ := he 0 _ (fun r : MessageRow => r.m.sent_at) (listRows s userId c)
    rw [List.take_of_length_le]
    · exact hp0
    · rw [hp0.length_eq]
      refine le_trans ?_ (le_pages_mul (listTotal s userId c) n hn)
      exact List.length_filterMap_le _ _

/-- Witness of C7 amended: user 1 of `twoMessageStore`, one row per page. -/
theorem pages_cover_listing_once_witness :
    (∀ k : Nat, ((fun _ : Nat => stableEngine) k).Lawful) ∧ 1 ≤ 1 ∧ 1 < 2 ^ 63 ∧
      listTotal twoMessageStore 1 none < 2 ^ 53 ∧
      (listRows twoMessageStore 1 none).Pairwise (fun a b => a.m.sent_at ≠ b.m.sent_at) ∧
      ∃ pages : Nat,
        (∃ r, getMessagesAnswer stableEngine twoMessageStore 1
            ⟨some 1, some ((1 : Nat) : Int), none⟩ = some r ∧
          r.pagination.pages = some (pages : Int)) ∧
        (∀ k < pages,
          (getMessagesAnswer stableEngine twoMessageStore 1
            ⟨some ((k : Int) + 1), some ((1 : Nat) : Int), none⟩).isSome) ∧
        ((List.range pages).flatMap (fun k =>
          ((getMessagesAnswer stableEngine twoMessageStore 1
            ⟨some ((k : Int) + 1), some ((1 : Nat) : Int), none⟩).map
              (fun r => r.messages)).getD [])).Perm
                (listRows twoMessageStore 1 none) :=
  ⟨fun _ => stableEngine_lawful, by decide, by decide, by decide, by decide,
    pages_cover_listing_once (fun _ : Nat => stableEngine) (fun _ => stableEngine_lawful)
      twoMessageStore 1 none 1 (by decide) (by decide) (by decide) (by decide)⟩

/-- C8 as stated fails: a requested limit of 0 is passed to the store as 0, and no bound
`maxPageSize` holds for the row limit of every request. -/
theorem row_limit_not_clamped :
    listLimit ⟨none, some 0, none⟩ = 0 ∧
      ¬ ∃ maxPageSize : Int, ∀ q : ListQuery, 1 ≤ listLimit q ∧ listLimit q ≤ maxPageSize := by
  refine ⟨rfl, ?_⟩
  rintro ⟨maxPageSize, h⟩
  have h1 := (h ⟨none, some (maxPageSize + 1), none⟩).2
  simp [listLimit] at h1

/-- C8, amended. `GET /api/messages` does not clamp the limit: the row limit passed to the store is
the requested limit itself, 50 when none is given, and for a limit that is not negative the
returned page has at most that many items. -/
theorem listing_page_length_le (e : Engine) (s : Store) (userId : Nat) (q : ListQuery)
    (h : 0 ≤ listLimit q) :
    listLimit q = q.limit.getD 50 ∧
      (getMessages e s userId q).messages.length ≤ (listLimit q).toNat := by
  refine ⟨rfl, ?_⟩
  show (listPage e s userId q).reverse.length ≤ _
  rw [List.length_reverse]
  unfold listPage sqlLimitOffset
  rw [if_neg (not_lt.mpr h)]
  exact List.length_take_le _ _

/-- Witness of C8 amended: a limit of 1 at `twoMessageStore`. -/
theorem listing_page_length_le_witness :
    (0 : Int) ≤ listLimit ⟨none, some 1, none⟩ ∧
      listLimit ⟨none, some 1, none⟩ = (some (1 : Int)).getD 50 ∧
      (getMessages stableEngine twoMessageStore 1 ⟨none, some 1, none⟩).messages.length ≤
        (listLimit ⟨none, some 1, none⟩).toNat :=
  ⟨by decide, listing_page_length_le stableEngine twoMessageStore 1 ⟨none, some 1, none⟩ (by decide)⟩

/-- C9 as stated fails: at `thirdPartyStore` a message that user 1 addresses to user 1 is answered
with 201 and stored with `sender_id = receiver_id = 1`. -/
theorem self_addressed_message_is_stored :
    (postMessage thirdPartyStore 9 1 ⟨some 1, none, "hello"⟩).1.status = some 201 ∧
      (postMessage thirdPartyStore 9 1 ⟨some 1, none, "hello"⟩).2.messages.map
        (fun m => (m.id, m.sender_id, m.receiver_id)) = [(1, 3, 1), (2, 1, 1)] := by
  decide

/-- C9, amended. A `POST /api/messages` whose `receiverId` is the id of the sender is not rejected on
that ground: when the sender is a known user and the text, once trimmed, has between 1 and 1000
characters (no `productId`), the answer is 201 and a message with `sender_id = receiver_id` is
stored. -/
theorem self_addressed_message_accepted (s : Store) (now userId : Nat) (text : String)
    (hid : 1 ≤ userId) (hknown : (lookupUser s userId).isSome)
    (hlen : 1 ≤ validatorLength (jsTrim text) ∧ validatorLength (jsTrim text) ≤ 1000) :
    ∃ row s', postMessage s now userId ⟨some (userId : Int), none, text⟩ = (.created (some row), s') ∧
      (PostResult.created (some row)).status = some 201 ∧
      row.m.sender_id = userId ∧ row.m.receiver_id = userId ∧ row.m ∈ s'.messages := by
  obtain ⟨u, hu⟩ := Option.isSome_iff_exists.mp hknown
  have huid := lookupUser_id hu
  have hv : (validateMessage ⟨some (userId : Int), none, text⟩).2 = [] := by
    have h1 : (1 : Int) ≤ (userId : Int) := by exact_mod_cast hid
    simp [validateMessage, h1, hlen]
  have hb : (validateMessage ⟨some (userId : Int), none, text⟩).1 =
      ⟨some (userId : Int), none, jsTrim text⟩ := rfl
  have hfk : foreignKeysOk s userId userId none = true := by
    simp [foreignKeysOk, hknown]
  obtain ⟨row, hrow, hm⟩ := joinRow_inserted s now userId userId none (jsTrim text) hfk
  refine ⟨row, { s with
      messages := s.messages ++ [⟨nextMessageId s, userId, userId, none, jsTrim text, now⟩]
      messageSeq := nextMessageId s }, ?_, rfl, ?_, ?_, ?_⟩
  · unfold postMessage
    simp only [hv, hb, if_true]
    unfold sendHandler
    have hl : (some (userId : Int)).bind (lookupUserInt s) = some u := by
      simp [lookupUserInt, hu]
    simp only [hl, huid]
    exact insertAndRespond_of_foreignKeysOk s now userId userId none (jsTrim text) hfk hrow
  · rw [hm]
  · rw [hm]
  · rw [hm]; simp

/-- Witness of C9 amended: user 1 of `thirdPartyStore` writes to user 1. -/
theorem self_addressed_message_accepted_witness :
    1 ≤ 1 ∧ (lookupUser thirdPartyStore 1).isSome ∧
      (1 ≤ validatorLength (jsTrim "hello") ∧ validatorLength (jsTrim "hello") ≤ 1000) ∧
      ∃ row s', postMessage thirdPartyStore 9 1 ⟨some ((1 : Nat) : Int), none, "hello"⟩ =
          (.created (some row), s') ∧
        (PostResult.created (some row)).status = some 201 ∧
        row.m.sender_id = 1 ∧ row.m.receiver_id = 1 ∧ row.m ∈ s'.messages :=
  ⟨by decide, by decide, by decide,
    self_addressed_message_accepted thirdPartyStore 9 1 "hello" (by decide) (by decide) (by decide)⟩

/-! ## Lemmas on validation and on the answers of `POST /` -/

/-- When `validateMessage` reports no error. -/
theorem validateMessage_ok_iff (b : MessageBody) :
    (validateMessage b).2 = [] ↔
      (∃ r, b.receiverId = some r ∧ 1 ≤ r) ∧ (∀ q, b.productId = some q → 1 ≤ q) ∧
        1 ≤ validatorLength (jsTrim b.text) ∧ validatorLength (jsTrim b.text) ≤ 1000 := by
  unfold validateMessage
  simp only [List.append_eq_nil]
  constructor
  · rintro ⟨⟨h1, h2⟩, h3⟩
    refine ⟨?_, ?_, ?_⟩
    · cases hr : b.receiverId with
      | none => rw [hr] at h1; simp at h1
      | some r =>
        rw [hr] at h1
        by_cases h : 1 ≤ r
        · exact ⟨r, rfl, h⟩
        · simp [h] at h1
    · intro q hq
      rw [hq] at h2
      by_contra h
      simp [h] at h2
    · by_contra h
      simp [h] at h3
  · rintro ⟨⟨r, hr, hr1⟩, hq, hlen⟩
    refine ⟨⟨?_, ?_⟩, ?_⟩
    · simp [hr, hr1]
    · cases hp : b.productId with
      | none => rfl
      | some q => simp [hq q hp]
    · simp [hlen]

/-- A text whose first and last characters are not white space is left as it is by `trim()`. -/
theorem jsTrim_eq_self (l : List Char)
    (hfirst : ∀ c, l.head? = some c → jsIsSpace c = false)
    (hlast : ∀ c, l.getLast? = some c → jsIsSpace c = false) :
    jsTrim (String.mk l) = String.mk l := by
  have hdrop : ∀ l' : List Char, (∀ c, l'.head? = some c → jsIsSpace c = false) →
      l'.dropWhile jsIsSpace = l' := by
    intro l' h
    cases l' with
    | nil => rfl
    | cons c cs =>
      rw [List.dropWhile_cons]
      simp [h c rfl]
  unfold jsTrim
  show String.mk (((l.dropWhile jsIsSpace).reverse.dropWhile jsIsSpace).reverse) = _
  rw [hdrop l hfirst, hdrop l.reverse (by simpa [List.head?_reverse] using hlast),
    List.reverse_reverse]

theorem validatorLength_replicate_a (n : Nat) (rest : List Char) :
    validatorLength (String.mk (List.replicate n 'a' ++ rest)) =
      n + validatorLength (String.mk rest) := by
  unfold validatorLength
  show ((List.replicate n 'a' ++ rest).filter _).length = n + (rest.filter _).length
  rw [List.filter_append, List.length_append]
  congr 1
  rw [List.filter_eq_self.mpr, List.length_replicate]
  intro c hc
  rw [List.eq_of_mem_replicate hc]
  decide

/-- The answer of `POST /` when sender, receiver and product are known and the text is valid: 201
with the stored row, and the store with that one row more. -/
theorem postMessage_of_valid (s : Store) (now senderId receiverId : Nat)
    (productId : Option Nat) (text : String)
    (hsender : (lookupUser s senderId).isSome)
    (hreceiver : 1 ≤ receiverId ∧ (lookupUser s receiverId).isSome)
    (hproduct : ∀ p, productId = some p → 1 ≤ p ∧ (lookupProduct s p).isSome)
    (htext : 1 ≤ validatorLength (jsTrim text) ∧ validatorLength (jsTrim text) ≤ 1000) :
    ∃ row s',
      postMessage s now senderId
          ⟨some (receiverId : Int), productId.map (fun (p : Nat) => (p : Int)), text⟩ =
        (.created (some row), s') ∧
      s'.messages = s.messages ++ [row.m] ∧ s'.users = s.users ∧ s'.products = s.products ∧
      row.m = ⟨nextMessageId s, senderId, receiverId, productId, jsTrim text, now⟩ := by
  obtain ⟨ur, hur⟩ := Option.isSome_iff_exists.mp hreceiver.2
  have hurid := lookupUser_id hur
  have hv : (validateMessage
      ⟨some (receiverId : Int), productId.map (fun (p : Nat) => (p : Int)), text⟩).2 = [] := by
    rw [validateMessage_ok_iff]
    refine ⟨⟨_, rfl, by have := hreceiver.1; omega⟩, ?_, htext⟩
    intro q hq
    cases hp : productId with
    | none => rw [hp] at hq; simp at hq
    | some p =>
      rw [hp] at hq
      simp at hq
      have := (hproduct p hp).1
      omega
  have hfk : foreignKeysOk s senderId receiverId productId = true := by
    unfold foreignKeysOk
    simp only [hsender, hreceiver.2, Bool.true_and]
    cases hp : productId with
    | none => rfl
    | some p => exact (hproduct p hp).2
  obtain ⟨row, hrow, hm⟩ := joinRow_inserted s now senderId receiverId productId (jsTrim text) hfk
  have hresp := insertAndRespond_of_foreignKeysOk s now senderId receiverId productId
    (jsTrim text) hfk hrow
  refine ⟨row, { s with
      messages := s.messages ++
        [⟨nextMessageId s, senderId, receiverId, productId, jsTrim text, now⟩]
      messageSeq := nextMessageId s }, ?_, ?_, rfl, rfl, hm⟩
  · unfold postMessage
    simp only [hv, if_true]
    have hb : (validateMessage
        ⟨some (receiverId : Int), productId.map (fun (p : Nat) => (p : Int)), text⟩).1 =
        ⟨some (receiverId : Int), productId.map (fun (p : Nat) => (p : Int)), jsTrim text⟩ := rfl
    rw [hb]
    unfold sendHandler
    have hl : (some (receiverId : Int)).bind (lookupUserInt s) = some ur := by
      simp [lookupUserInt, hur]
    simp only [hl, hurid]
    cases hp : productId with
    | none =>
      rw [hp] at hresp
      simpa using hresp
    | some p =>
      rw [hp] at hresp
      obtain ⟨pr, hpr⟩ := Option.isSome_iff_exists.mp (hproduct p hp).2
      have hprid := lookupProduct_id hpr
      have hp0 : ¬ ((p : Int) = 0) := by have := (hproduct p hp).1; omega
      have hlp : lookupProductInt s (p : Int) = some pr := by
        simp [lookupProductInt, hpr]
      simp only [Option.map_some', hp0, if_false, hlp, hprid]
      exact hresp
  · rw [hm]

theorem jsTrim_replicate_a_concat (n : Nat) (c : Char) (hc : jsIsSpace c = false) :
    jsTrim (String.mk (List.replicate (n + 1) 'a' ++ [c])) =
      String.mk (List.replicate (n + 1) 'a' ++ [c]) := by
  refine jsTrim_eq_self _ ?_ ?_
  · intro x hx
    rw [List.replicate_succ, List.cons_append, List.head?_cons] at hx
    rw [← Option.some.inj hx]
    decide
  · intro x hx
    rw [List.getLast?_concat] at hx
    rw [← Option.some.inj hx]
    exact hc

theorem jsTrim_thousandCharsAndSelector :
    jsTrim thousandCharsAndSelector = thousandCharsAndSelector :=
  jsTrim_replicate_a_concat 999 (Char.ofNat 0xFE0F) (by decide)

/-- C10 as stated fails: a text of 1001 characters, 1000 letters followed by the variation selector
U+FE0F, sent by user 1 to user 2 at `thirdPartyStore` is answered 201 and stored. -/
theorem text_over_bound_with_selector_is_stored :
    (jsTrim thousandCharsAndSelector).length = 1001 ∧
      (postMessage thirdPartyStore 9 1 ⟨some 2, none, thousandCharsAndSelector⟩).1.status =
        some 201 ∧
      (postMessage thirdPartyStore 9 1 ⟨some 2, none, thousandCharsAndSelector⟩).2.messages.map
        (fun m => (m.id, m.sender_id, m.receiver_id, m.text.length)) =
          [(1, 3, 1, 2), (2, 1, 2, 1001)] := by
  have hlen : (jsTrim thousandCharsAndSelector).length = 1001 := by
    rw [jsTrim_thousandCharsAndSelector]
    show (List.replicate 1000 'a' ++ [Char.ofNat 0xFE0F]).length = 1001
    rw [List.length_append, List.length_replicate]
    rfl
  have hvl : validatorLength (jsTrim thousandCharsAndSelector) = 1000 := by
    rw [jsTrim_thousandCharsAndSelector]
    unfold thousandCharsAndSelector
    rw [validatorLength_replicate_a]
    rfl
  obtain ⟨row, s', hpost, hmsgs, -, -, hrow⟩ :=
    postMessage_of_valid thirdPartyStore 9 1 2 none thousandCharsAndSelector (by decide)
      (by decide) (by intro p h; cases h) (by omega)
  have hpost' : postMessage thirdPartyStore 9 1 ⟨some 2, none, thousandCharsAndSelector⟩ =
      (.created (some row), s') := hpost
  rw [hpost']
  refine ⟨hlen, rfl, ?_⟩
  show s'.messages.map _ = _
  rw [hmsgs, hrow]
  simp only [List.map_append, List.map_cons, List.map_nil]
  have hid : nextMessageId thirdPartyStore = 2 := by decide
  have hl : (jsTrim thousandCharsAndSelector).length = 1001 := hlen
  rw [hid, hl]
  rfl

/-- C10, amended. For every `POST /api/messages` whose text, trimmed as the validator trims it, counts
no character or more than 1000 characters, the variation selectors U+FE0E and U+FE0F not being
counted (the validator does not count them), the answer is 400 and the store is unchanged: the
request is turned down before the handler runs. -/
theorem invalid_text_rejected (s : Store) (now senderId : Nat) (b : MessageBody)
    (h : validatorLength (jsTrim b.text) = 0 ∨ 1000 < validatorLength (jsTrim b.text)) :
    (postMessage s now senderId b).1.status = some 400 ∧ (postMessage s now senderId b).2 = s := by
  have hv : (validateMessage b).2 ≠ [] := by
    have hlen : ¬ (1 ≤ validatorLength (jsTrim b.text) ∧
        validatorLength (jsTrim b.text) ≤ 1000) := by omega
    simp [validateMessage, hlen]
  unfold postMessage
  simp only [hv, if_false]
  exact ⟨rfl, trivial⟩

/-- Witness of C10 amended: a text of three blanks sent to user 2. -/
theorem invalid_text_rejected_witness :
    (validatorLength (jsTrim (MessageBody.mk (some 2) none "   ").text) = 0 ∨
        1000 < validatorLength (jsTrim (MessageBody.mk (some 2) none "   ").text)) ∧
      (postMessage thirdPartyStore 9 1 ⟨some 2, none, "   "⟩).1.status = some 400 ∧
      (postMessage thirdPartyStore 9 1 ⟨some 2, none, "   "⟩).2 = thirdPartyStore :=
  ⟨by decide, invalid_text_rejected thirdPartyStore 9 1 ⟨some 2, none, "   "⟩ (by decide)⟩

/-- C11. For every `POST /api/messages` that passes validation, if `receiverId` is not the id of a
known user, or a `productId` is supplied that is not the id of a known product, the answer is 404
and the store is unchanged. -/
theorem unknown_receiver_or_product_not_found (s : Store) (now senderId : Nat) (b : MessageBody)
    (hvalid : (validateMessage b).2 = [])
    (hunknown : b.receiverId.bind (lookupUserInt s) = none ∨
      ∃ q, b.productId = some q ∧ lookupProductInt s q = none) :
    (postMessage s now senderId b).1.status = some 404 ∧ (postMessage s now senderId b).2 = s := by
  have hq1 := ((validateMessage_ok_iff b).mp hvalid).2.1
  unfold postMessage
  simp only [hvalid, if_true]
  unfold sendHandler
  have hrec : (validateMessage b).1.receiverId = b.receiverId := rfl
  have hprod : (validateMessage b).1.productId = b.productId := rfl
  rw [hrec, hprod]
  cases hl : b.receiverId.bind (lookupUserInt s) with
  | none => exact ⟨rfl, rfl⟩
  | some receiver =>
    rcases hunknown with h | ⟨q, hq, hnone⟩
    · rw [hl] at h; cases h
    · have hq0 : ¬ (q = 0) := by have := hq1 q hq; omega
      simp only [hq, hq0, if_false, hnone]
      exact ⟨rfl, trivial⟩

/-- Witness of C11: user 1 writes to the unknown user 9 at `twoMessageStore`. -/
theorem unknown_receiver_or_product_not_found_witness :
    (validateMessage ⟨some 9, none, "third"⟩).2 = [] ∧
      ((MessageBody.mk (some 9) none "third").receiverId.bind (lookupUserInt twoMessageStore) = none ∨
        ∃ q, (MessageBody.mk (some 9) none "third").productId = some q ∧
          lookupProductInt twoMessageStore q = none) ∧
      (postMessage twoMessageStore 3 1 ⟨some 9, none, "third"⟩).1.status = some 404 ∧
      (postMessage twoMessageStore 3 1 ⟨some 9, none, "third"⟩).2 = twoMessageStore :=
  ⟨by decide, Or.inl (by decide),
    unknown_receiver_or_product_not_found twoMessageStore 3 1 ⟨some 9, none, "third"⟩ (by decide)
      (Or.inl (by decide))⟩

/-- C12 as stated fails: at `twoMessageStore` the text `"  hi  "` sent by user 1 to user 2 is stored
as `"hi"`, not as sent; and a send by the verified user 7, who is not a row of `users`, gets no
response and stores nothing. -/
theorem post_stores_trimmed_text_and_needs_known_sender :
    (postMessage twoMessageStore 3 1 ⟨some 2, none, "  hi  "⟩).1.status = some 201 ∧
      (postMessage twoMessageStore 3 1 ⟨some 2, none, "  hi  "⟩).2.messages.map
        (fun m => (m.id, m.sender_id, m.receiver_id, m.text)) =
          [(1, 1, 2, "first"), (2, 2, 1, "second"), (3, 1, 2, "hi")] ∧
      postMessage twoMessageStore 3 7 ⟨some 2, none, "hi"⟩ = (.storeError, twoMessageStore) ∧
      (postMessage twoMessageStore 3 7 ⟨some 2, none, "hi"⟩).1.status = none := by
  decide

/-- C12, amended. For every authenticated sender that is a known user, known receiver, text that is
valid once trimmed and optional known product, `POST /api/messages` answers 201 with the stored
record, and the store afterwards is the previous store plus exactly one message: its sender is
the verified user, its receiver and product are the ones named, its text is the text sent with
the white space at both ends removed, and its id is assigned by the store and greater than every
id stored before. -/
theorem post_appends_one_message (s : Store) (now senderId receiverId : Nat)
    (productId : Option Nat) (text : String)
    (hsender : (lookupUser s senderId).isSome)
    (hreceiver : 1 ≤ receiverId ∧ (lookupUser s receiverId).isSome)
    (hproduct : ∀ p, productId = some p → 1 ≤ p ∧ (lookupProduct s p).isSome)
    (htext : 1 ≤ validatorLength (jsTrim text) ∧ validatorLength (jsTrim text) ≤ 1000) :
    ∃ row s',
      postMessage s now senderId
          ⟨some (receiverId : Int), productId.map (fun (p : Nat) => (p : Int)), text⟩ =
        (.created (some row), s') ∧
      (PostResult.created (some row)).status = some 201 ∧
      s'.messages = s.messages ++ [row.m] ∧ s'.users = s.users ∧ s'.products = s.products ∧
      row.m.sender_id = senderId ∧ row.m.receiver_id = receiverId ∧
      row.m.product_id = productId ∧ row.m.text = jsTrim text ∧ row.m.sent_at = now ∧
      ∀ m ∈ s.messages, m.id < row.m.id := by
  obtain ⟨row, s', hpost, hmsgs, husers, hproducts, hrow⟩ :=
    postMessage_of_valid s now senderId receiverId productId text hsender hreceiver hproduct htext
  refine ⟨row, s', hpost, rfl, hmsgs, husers, hproducts, ?_, ?_, ?_, ?_, ?_, ?_⟩
  · rw [hrow]
  · rw [hrow]
  · rw [hrow]
  · rw [hrow]
  · rw [hrow]
  · intro m hmem
    rw [hrow]
    exact nextMessageId_gt s m hmem

/-- Witness of C12 amended: user 1 sends `"  hi  "` to user 2 at `twoMessageStore`. -/
theorem post_appends_one_message_witness :
    (lookupUser twoMessageStore 1).isSome ∧
      (1 ≤ 2 ∧ (lookupUser twoMessageStore 2).isSome) ∧
      (∀ p, (none : Option Nat) = some p → 1 ≤ p ∧ (lookupProduct twoMessageStore p).isSome) ∧
      (1 ≤ validatorLength (jsTrim "  hi  ") ∧ validatorLength (jsTrim "  hi  ") ≤ 1000) ∧
      ∃ row s',
        postMessage twoMessageStore 3 1
            ⟨some ((2 : Nat) : Int), (none : Option Nat).map (fun (p : Nat) => (p : Int)),
              "  hi  "⟩ =
          (.created (some row), s') ∧
        (PostResult.created (some row)).status = some 201 ∧
        s'.messages = twoMessageStore.messages ++ [row.m] ∧ s'.users = twoMessageStore.users ∧
        s'.products = twoMessageStore.products ∧
        row.m.sender_id = 1 ∧ row.m.receiver_id = 2 ∧
        row.m.product_id = none ∧ row.m.text = jsTrim "  hi  " ∧ row.m.sent_at = 3 ∧
        ∀ m ∈ twoMessageStore.messages, m.id < row.m.id :=
  ⟨by decide, by decide, (by intro p h; cases h), by decide,
    post_appends_one_message twoMessageStore 3 1 2 none "  hi  " (by decide) (by decide)
      (by intro p h; cases h) (by decide)⟩

/-! ## Lemmas on the live channel -/

theorem mem_socketJoin {rooms : Rooms} {socket userId : Nat} {p : Nat × Nat} :
    p ∈ socketJoin rooms socket userId ↔ p ∈ rooms ∨ p = (socket, userId) := by
  unfold socketJoin
  split_ifs with h
  · constructor
    · intro hp; exact Or.inl hp
    · rintro (hp | rfl)
      · exact hp
      · exact h
  · simp [List.mem_append]

theorem mem_emitTo {rooms : Rooms} {room socket : Nat} {message m : PushedMessage} :
    (socket, m) ∈ emitTo rooms room message ↔ (socket, room) ∈ rooms ∧ m = message := by
  unfold emitTo socketsIn
  simp only [List.map_map, List.mem_map, List.mem_filter, beq_iff_eq, Function.comp_apply,
    Prod.mk.injEq]
  constructor
  · rintro ⟨⟨a, b⟩, ⟨hmem, hb⟩, ha, hm⟩
    simp only at hb ha
    subst hb ha
    exact ⟨hmem, hm.symm⟩
  · rintro ⟨hmem, rfl⟩
    exact ⟨(socket, room), ⟨hmem, rfl⟩, rfl, rfl⟩

/-- The handler of `sendMessage` when the insert succeeds. -/
theorem sendMessageEvent_of_insert {s s' : Store} {rooms : Rooms} {now jsNow lastID : Nat}
    {d : SendEvent}
    (h : insertMessage s now d.senderId d.receiverId none d.text = some (lastID, s')) :
    sendMessageEvent s rooms now jsNow d =
      (s', emitTo rooms d.receiverId ⟨lastID, d.senderId, d.receiverId, d.text, jsNow⟩ ++
        emitTo rooms d.senderId ⟨lastID, d.senderId, d.receiverId, d.text, jsNow⟩) := by
  unfold sendMessageEvent
  rw [h]

/-- C13 as stated fails: at `thirdPartyStore` the event `sendMessage` with `senderId = receiverId = 1`
stores the message (id 2) and pushes it, twice, to the socket joined as user 1. -/
theorem live_send_self_addressed_is_stored_and_pushed :
    (sendMessageEvent thirdPartyStore sampleRooms 9 10 ⟨1, 1, "hello"⟩).1.messages.map
        (fun m => (m.id, m.sender_id, m.receiver_id)) = [(1, 3, 1), (2, 1, 1)] ∧
      (sendMessageEvent thirdPartyStore sampleRooms 9 10 ⟨1, 1, "hello"⟩).2.map
        (fun p => (p.1, p.2.id)) = [(10, 2), (10, 2)] := by
  decide

/-- When a foreign key of the new row has no target, `POST /` (no product) stores nothing. -/
theorem postMessage_store_of_foreignKeys_fail (s : Store) (now senderId receiverId : Nat)
    (text : String) (hfk : foreignKeysOk s senderId receiverId none = false) :
    (postMessage s now senderId ⟨some (receiverId : Int), none, text⟩).2 = s := by
  unfold postMessage
  simp only
  split_ifs with hv
  · unfold sendHandler
    have hrec : (validateMessage ⟨some (receiverId : Int), none, text⟩).1 =
        ⟨some (receiverId : Int), none, jsTrim text⟩ := rfl
    rw [hrec]
    simp only [Option.some_bind]
    cases hl : lookupUserInt s (receiverId : Int) with
    | none => rfl
    | some receiver =>
      have hid : receiver.id = receiverId := by
        have := lookupUserInt_some hl
        omega
      simp only [hid]
      unfold insertAndRespond insertMessage
      simp [hfk]
  · rfl

theorem append_singleton_ne_self {α : Type} (l : List α) (a : α) : l ≠ l ++ [a] := by
  intro h
  have := congrArg List.length h
  simp at this

/-- The event `sendMessage` runs no validation: at `thirdPartyStore` an event of user 1 to user 2
with the empty text is stored and pushed, where the `POST` with that text is answered 400. -/
theorem live_send_empty_text_is_stored :
    (sendMessageEvent thirdPartyStore sampleRooms 9 10 ⟨1, 2, ""⟩).1.messages.map
        (fun m => (m.id, m.sender_id, m.receiver_id, m.text)) = [(1, 3, 1, "hi"), (2, 1, 2, "")] ∧
      (sendMessageEvent thirdPartyStore sampleRooms 9 10 ⟨1, 2, ""⟩).2.map
        (fun p => (p.1, p.2.id)) = [(11, 2), (12, 2), (10, 2)] ∧
      (postMessage thirdPartyStore 9 1 ⟨some 2, none, sanitizeString ""⟩).1.status = some 400 := by
  decide

/-- C13, amended. For every sender, receiver and text such that the text, as the route `POST
/api/messages` receives it (after `sanitizeString`), passes the validation of that route: the
event `sendMessage` stores a message if and only if the `POST` by that sender with the same
receiver and text (no product) stores one; the row the event stores has the sender, the
receiver and the text of the event, and the row of the `POST` differs from it in the text only,
which is sanitized and trimmed; when the event stores nothing it pushes nothing.  The case
`senderId = receiverId` is no exception. -/
theorem live_send_persists_iff_post_would (s : Store) (rooms : Rooms) (now jsNow : Nat)
    (senderId receiverId : Nat) (text : String)
    (hvalid : (validateMessage ⟨some (receiverId : Int), none, sanitizeString text⟩).2 = []) :
    ((∃ m, (sendMessageEvent s rooms now jsNow ⟨senderId, receiverId, text⟩).1.messages =
          s.messages ++ [m]) ↔
        ∃ m, (postMessage s now senderId
          ⟨some (receiverId : Int), none, sanitizeString text⟩).2.messages = s.messages ++ [m]) ∧
      (∀ m, (sendMessageEvent s rooms now jsNow ⟨senderId, receiverId, text⟩).1.messages =
          s.messages ++ [m] →
        m = ⟨nextMessageId s, senderId, receiverId, none, text, now⟩ ∧
          (postMessage s now senderId
            ⟨some (receiverId : Int), none, sanitizeString text⟩).2.messages =
            s.messages ++ [{ m with text := jsTrim (sanitizeString text) }]) ∧
      ((sendMessageEvent s rooms now jsNow ⟨senderId, receiverId, text⟩).1.messages =
          s.messages →
        (sendMessageEvent s rooms now jsNow ⟨senderId, receiverId, text⟩).2 = []) := by
  obtain ⟨⟨r, hr, hr1⟩, -, htext⟩ := (validateMessage_ok_iff _).mp hvalid
  have hrpos : 1 ≤ receiverId := by
    simp only [Option.some.injEq] at hr
    omega
  by_cases hfk : foreignKeysOk s senderId receiverId none = true
  · have hfk' := hfk
    simp only [foreignKeysOk, Bool.and_eq_true] at hfk'
    obtain ⟨row, s', hpost, hmsgs, -, -, hrow⟩ :=
      postMessage_of_valid s now senderId receiverId none (sanitizeString text) hfk'.1.1
        ⟨hrpos, hfk'.1.2⟩ (by intro p h; cases h) htext
    have hpost' : postMessage s now senderId
        ⟨some (receiverId : Int), none, sanitizeString text⟩ = (.created (some row), s') := hpost
    have hinsert : insertMessage s now senderId receiverId none text =
        some (nextMessageId s, { s with
          messages := s.messages ++ [⟨nextMessageId s, senderId, receiverId, none, text, now⟩]
          messageSeq := nextMessageId s }) := by
      simp [insertMessage, hfk]
    rw [sendMessageEvent_of_insert (d := ⟨senderId, receiverId, text⟩) hinsert, hpost']
    refine ⟨⟨fun _ => ⟨row.m, hmsgs⟩, fun _ => ⟨_, rfl⟩⟩, ?_, ?_⟩
    · intro m hm
      have hm' : s.messages ++ [⟨nextMessageId s, senderId, receiverId, none, text, now⟩] =
          s.messages ++ [m] := hm
      have hmeq : m = ⟨nextMessageId s, senderId, receiverId, none, text, now⟩ := by
        have := List.append_cancel_left hm'
        simp only [List.cons.injEq, and_true] at this
        exact this.symm
      refine ⟨hmeq, ?_⟩
      show s'.messages = _
      rw [hmsgs, hrow, hmeq]
    · intro h
      exact absurd h.symm (append_singleton_ne_self _ _)
  · have hfk' : foreignKeysOk s senderId receiverId none = false := by
      simpa using hfk
    have hlive : sendMessageEvent s rooms now jsNow ⟨senderId, receiverId, text⟩ = (s, []) := by
      unfold sendMessageEvent insertMessage
      simp [hfk']
    rw [hlive, postMessage_store_of_foreignKeys_fail s now senderId receiverId _ hfk']
    refine ⟨⟨?_, ?_⟩, ?_, fun _ => rfl⟩
    · rintro ⟨m, hm⟩
      exact absurd hm (append_singleton_ne_self _ _)
    · rintro ⟨m, hm⟩
      exact absurd hm (append_singleton_ne_self _ _)
    · intro m hm
      exact absurd hm (append_singleton_ne_self _ _)

/-- Witness of C13 amended: user 1 of `thirdPartyStore` writes "hello" to user 1. -/
theorem live_send_persists_iff_post_would_witness :
    (validateMessage ⟨some ((1 : Nat) : Int), none, sanitizeString "hello"⟩).2 = [] ∧
      (sendMessageEvent thirdPartyStore sampleRooms 9 10 ⟨1, 1, "hello"⟩).1.messages =
        thirdPartyStore.messages ++ [⟨2, 1, 1, none, "hello", 9⟩] ∧
      ((∃ m, (sendMessageEvent thirdPartyStore sampleRooms 9 10 ⟨1, 1, "hello"⟩).1.messages =
            thirdPartyStore.messages ++ [m]) ↔
          ∃ m, (postMessage thirdPartyStore 9 1
            ⟨some ((1 : Nat) : Int), none, sanitizeString "hello"⟩).2.messages =
              thirdPartyStore.messages ++ [m]) :=
  ⟨by decide, by decide,
    (live_send_persists_iff_post_would thirdPartyStore sampleRooms 9 10 1 1 "hello"
      (by decide)).1⟩

/-- C14. At `twoMessageStore`, with socket 10 joined as user 1 and sockets 11 and 12 as user 2,
the `POST` of user 1 to user 2 is answered 201 and delivers to no socket, where the event
`sendMessage` with the same data delivers to sockets 11, 12 and 10. -/
theorem post_delivers_to_no_session :
    (postMessage twoMessageStore 3 1 ⟨some 2, none, "third"⟩).1.status = some 201 ∧
      socketsIn sampleRooms 1 = [10] ∧ socketsIn sampleRooms 2 = [11, 12] ∧
      postDeliveries sampleRooms twoMessageStore 3 1 ⟨some 2, none, "third"⟩ = [] ∧
      (sendMessageEvent twoMessageStore sampleRooms 3 3 ⟨1, 2, "third"⟩).2.map (fun p => p.1) =
        [11, 12, 10] := by
  decide

/-- C15. For every live-channel send that is stored and every user who is its sender or its
receiver, every socket that joined under that user receives the push of the message; in
particular two sockets that joined under the same user both receive it. -/
theorem live_send_reaches_joined_sessions (s s' : Store) (rooms : Rooms) (now jsNow : Nat)
    (d : SendEvent) (lastID userId : Nat)
    (hsent : insertMessage s now d.senderId d.receiverId none d.text = some (lastID, s'))
    (hparty : userId = d.senderId ∨ userId = d.receiverId) :
    (∀ socket, (socket, userId) ∈ rooms →
        (socket, (⟨lastID, d.senderId, d.receiverId, d.text, jsNow⟩ : PushedMessage)) ∈
          (sendMessageEvent s rooms now jsNow d).2) ∧
      ∀ socket₁ socket₂,
        (socket₁, (⟨lastID, d.senderId, d.receiverId, d.text, jsNow⟩ : PushedMessage)) ∈
            (sendMessageEvent s (socketJoin (socketJoin rooms socket₁ userId) socket₂ userId)
              now jsNow d).2 ∧
          (socket₂, (⟨lastID, d.senderId, d.receiverId, d.text, jsNow⟩ : PushedMessage)) ∈
            (sendMessageEvent s (socketJoin (socketJoin rooms socket₁ userId) socket₂ userId)
              now jsNow d).2 := by
  have key : ∀ (rooms : Rooms) (socket : Nat), (socket, userId) ∈ rooms →
      (socket, (⟨lastID, d.senderId, d.receiverId, d.text, jsNow⟩ : PushedMessage)) ∈
        (sendMessageEvent s rooms now jsNow d).2 := by
    intro rooms socket hmem
    rw [sendMessageEvent_of_insert hsent]
    simp only [List.mem_append]
    rcases hparty with h | h
    · exact Or.inr (mem_emitTo.mpr ⟨h ▸ hmem, rfl⟩)
    · exact Or.inl (mem_emitTo.mpr ⟨h ▸ hmem, rfl⟩)
  refine ⟨key rooms, fun socket₁ socket₂ => ⟨key _ _ ?_, key _ _ ?_⟩⟩
  · exact mem_socketJoin.mpr (Or.inl (mem_socketJoin.mpr (Or.inr rfl)))
  · exact mem_socketJoin.mpr (Or.inr rfl)

/-- Witness of C15: user 1 sends to user 2 at `twoMessageStore`; sockets 11 and 12 joined as
user 2. -/
theorem live_send_reaches_joined_sessions_witness :
    insertMessage twoMessageStore 3 (SendEvent.mk 1 2 "third").senderId
        (SendEvent.mk 1 2 "third").receiverId none (SendEvent.mk 1 2 "third").text =
        some (3, (sendMessageEvent twoMessageStore sampleRooms 3 4 ⟨1, 2, "third"⟩).1) ∧
      (2 = (SendEvent.mk 1 2 "third").senderId ∨ 2 = (SendEvent.mk 1 2 "third").receiverId) ∧
      ∀ socket, (socket, 2) ∈ sampleRooms →
        (socket, (⟨3, 1, 2, "third", 4⟩ : PushedMessage)) ∈
          (sendMessageEvent twoMessageStore sampleRooms 3 4 ⟨1, 2, "third"⟩).2 :=
  ⟨by decide, Or.inr rfl,
    (live_send_reaches_joined_sessions twoMessageStore
      (sendMessageEvent twoMessageStore sampleRooms 3 4 ⟨1, 2, "third"⟩).1 sampleRooms 3 4
      ⟨1, 2, "third"⟩ 3 2 (by decide) (Or.inr rfl)).1⟩

/-- C16. For every live-channel send whose insert reports an error, no socket receives a push, and
the store is unchanged. -/
theorem live_send_failure_pushes_nothing (s : Store) (rooms : Rooms) (now jsNow : Nat)
    (d : SendEvent) (hfail : insertMessage s now d.senderId d.receiverId none d.text = none) :
    (sendMessageEvent s rooms now jsNow d).2 = [] ∧ (sendMessageEvent s rooms now jsNow d).1 = s := by
  unfold sendMessageEvent
  rw [hfail]
  exact ⟨rfl, rfl⟩

/-- Witness of C16: the unknown user 7 sends to user 2 at `twoMessageStore`. -/
theorem live_send_failure_pushes_nothing_witness :
    insertMessage twoMessageStore 3 (SendEvent.mk 7 2 "third").senderId
        (SendEvent.mk 7 2 "third").receiverId none (SendEvent.mk 7 2 "third").text = none ∧
      (sendMessageEvent twoMessageStore sampleRooms 3 4 ⟨7, 2, "third"⟩).2 = [] ∧
      (sendMessageEvent twoMessageStore sampleRooms 3 4 ⟨7, 2, "third"⟩).1 = twoMessageStore :=
  ⟨by decide,
    live_send_failure_pushes_nothing twoMessageStore sampleRooms 3 4 ⟨7, 2, "third"⟩ (by decide)⟩

/-- C17. At `twoPeersStore` the last message user 1 exchanged with peer 3 is of instant 3 and the
last with peer 2 of instant 2, so the list should have the row of peer 3 before the row of peer 2;
the route `GET /api/messages/conversations`, called with a valid token of user 1, answers with no
rows at all: the statement is refused and the callback throws. -/
theorem conversations_route_returns_no_rows :
    maxSentAt (twoPeersStore.messages.filter (betweenWhere 1 3)) = some 3 ∧
      maxSentAt (twoPeersStore.messages.filter (betweenWhere 1 2)) = some 2 ∧
      getConversationsRoute sampleJwtVerify stableEngine twoPeersStore (some "Bearer good") =
        (.ok (.thrown "SQLITE_ERROR: no such column: other_user_id"), twoPeersStore) := by
  refine ⟨by decide, by decide, ?_⟩
  have hb : bearerToken "Bearer good" = "good" := by decide
  have hv : verifyToken sampleJwtVerify (some "Bearer good") = .ok 1 := by
    unfold verifyToken
    simp only [hb]
    rw [if_neg (by decide), if_neg (by decide)]
    rfl
  have hg : getConversations stableEngine twoPeersStore 1 =
      .thrown "SQLITE_ERROR: no such column: other_user_id" := by decide
  unfold getConversationsRoute guarded
  rw [hv]
  simp only [hg]

/-- C18. At `tieStore` the message with the greatest `(sent_at, id)` between users 1 and 2 is the
one with id 2 and text `"b"`; the request `GET /api/messages/conversations` of user 1 returns no
row, hence no `last_message` and no `last_message_time`: the statement is refused and the callback
throws. -/
theorem conversations_last_message_not_returned :
    (lastMessageSpec tieStore 1 2).map (fun m => (m.id, m.text, m.sent_at)) = some (2, "b", 5) ∧
      getConversations stableEngine tieStore 1 =
        .thrown "SQLITE_ERROR: no such column: other_user_id" := by
  decide

/-! ## Lemmas on the guarded routes and on the store after an operation -/

theorem guarded_of_error {α : Type} {jwtVerify : String → JwtResult} {authHeader : Option String}
    {r : Nat × String} (h : verifyToken jwtVerify authHeader = .error r) (s : Store)
    (rest : Nat → α × Store) : guarded jwtVerify authHeader s rest = (.error r, s) := by
  unfold guarded
  rw [h]

theorem insertMessage_messages {s s' : Store} {now senderId receiverId lastID : Nat}
    {productId : Option Nat} {text : String}
    (h : insertMessage s now senderId receiverId productId text = some (lastID, s')) :
    s'.messages = s.messages ++ [⟨lastID, senderId, receiverId, productId, text, now⟩] := by
  unfold insertMessage at h
  split_ifs at h
  simp only [Option.some.injEq, Prod.mk.injEq] at h
  obtain ⟨h1, h2⟩ := h
  rw [← h2, ← h1]

theorem insertAndRespond_messages (s : Store) (now senderId receiverId : Nat)
    (productId : Option Nat) (text : String) :
    ∃ added, (insertAndRespond s now senderId receiverId productId text).2.messages =
      s.messages ++ added ∧ added.length ≤ 1 := by
  unfold insertAndRespond
  cases h : insertMessage s now senderId receiverId productId text with
  | none => exact ⟨[], by simp, by simp⟩
  | some r =>
    obtain ⟨lastID, s'⟩ := r
    exact ⟨_, insertMessage_messages h, by simp⟩

theorem postMessage_messages (s : Store) (now senderId : Nat) (b : MessageBody) :
    ∃ added, (postMessage s now senderId b).2.messages = s.messages ++ added ∧
      added.length ≤ 1 := by
  unfold postMessage
  simp only
  split_ifs
  · unfold sendHandler
    split
    · exact ⟨[], by simp, by simp⟩
    · split
      · split_ifs
        · exact insertAndRespond_messages _ _ _ _ _ _
        · split
          · exact ⟨[], by simp, by simp⟩
          · exact insertAndRespond_messages _ _ _ _ _ _
      · exact insertAndRespond_messages _ _ _ _ _ _
  · exact ⟨[], by simp, by simp⟩

/-- The statement of `PUT /read/:conversationId` sets `sent_at` to itself: it changes no row. -/
theorem markReadUpdate_eq (s : Store) (userId : Nat) (conversationId : Int) :
    markReadUpdate s userId conversationId = s := by
  unfold markReadUpdate
  have h : s.messages.map (fun m =>
      if m.receiver_id == userId && ((m.sender_id : Int) == conversationId) then
        { m with sent_at := m.sent_at }
      else m) = s.messages := by
    conv_rhs => rw [← List.map_id s.messages]
    refine List.map_congr_left ?_
    intro m _
    split_ifs <;> rfl
  rw [h]

theorem putRead_store (s : Store) (userId : Nat) (params : RouteParams) :
    (putRead s userId params).2 = s := by
  unfold putRead
  split_ifs
  · split
    · exact markReadUpdate_eq s userId _
    · rfl
  · rfl

theorem live_send_store_of_failure (s : Store) (rooms : Rooms) (now jsNow : Nat) (d : SendEvent)
    (h : insertMessage s now d.senderId d.receiverId none d.text = none) :
    (sendMessageEvent s rooms now jsNow d).1 = s := by
  unfold sendMessageEvent
  rw [h]

/-- C19. For every messaging route (`GET /`, `GET /conversations`, `POST /`,
`PUT /read/:conversationId`), a request whose `Authorization` header is missing, empty once
`Bearer ` is removed, expired or otherwise invalid is answered by `verifyToken` with status 401 or
400; the rest of the chain does not run, whatever it is, and the store is unchanged. -/
theorem unauthenticated_request_rejected (jwtVerify : String → JwtResult) (e : Engine) (s : Store)
    (now : Nat) (authHeader : Option String) (q : ListQuery) (b : MessageBody)
    (params : RouteParams)
    (hbad : authHeader = none ∨ ∃ h, authHeader = some h ∧
      (bearerToken h = "" ∨ jwtVerify (bearerToken h) = .expired ∨
        jwtVerify (bearerToken h) = .rejected)) :
    ∃ status error, (status = 401 ∨ status = 400) ∧
      verifyToken jwtVerify authHeader = .error (status, error) ∧
      getMessagesRoute jwtVerify e s authHeader q = (.error (status, error), s) ∧
      getConversationsRoute jwtVerify e s authHeader = (.error (status, error), s) ∧
      postMessageRoute jwtVerify s now authHeader b = (.error (status, error), s) ∧
      putReadRoute jwtVerify s authHeader params = (.error (status, error), s) ∧
      ∀ (α : Type) (rest : Nat → α × Store),
        guarded jwtVerify authHeader s rest = (.error (status, error), s) := by
  have hv : ∃ status error, (status = 401 ∨ status = 400) ∧
      verifyToken jwtVerify authHeader = .error (status, error) := by
    rcases hbad with rfl | ⟨h, rfl, hh⟩
    · exact ⟨401, _, Or.inl rfl, rfl⟩
    · unfold verifyToken
      simp only
      split_ifs with h1 h2
      · exact ⟨401, _, Or.inl rfl, rfl⟩
      · exact ⟨401, _, Or.inl rfl, rfl⟩
      · rcases hh with hh | hh | hh
        · exact absurd hh h2
        · rw [hh]; exact ⟨401, _, Or.inl rfl, rfl⟩
        · rw [hh]; exact ⟨400, _, Or.inr rfl, rfl⟩
  obtain ⟨status, error, hst, hver⟩ := hv
  exact ⟨status, error, hst, hver, guarded_of_error hver s _, guarded_of_error hver s _,
    guarded_of_error hver s _, guarded_of_error hver s _,
    fun α rest => guarded_of_error hver s rest⟩

/-- Witness of C19: a request with the expired token `old` at `twoMessageStore`. -/
theorem unauthenticated_request_rejected_witness :
    ((some "Bearer old" : Option String) = none ∨ ∃ h, (some "Bearer old" : Option String) = some h ∧
      (bearerToken h = "" ∨ sampleJwtVerify (bearerToken h) = .expired ∨
        sampleJwtVerify (bearerToken h) = .rejected)) ∧
      ∃ status error, (status = 401 ∨ status = 400) ∧
        verifyToken sampleJwtVerify (some "Bearer old") = .error (status, error) ∧
        getMessagesRoute sampleJwtVerify stableEngine twoMessageStore (some "Bearer old")
          ⟨none, none, none⟩ = (.error (status, error), twoMessageStore) ∧
        getConversationsRoute sampleJwtVerify stableEngine twoMessageStore (some "Bearer old") =
          (.error (status, error), twoMessageStore) ∧
        postMessageRoute sampleJwtVerify twoMessageStore 3 (some "Bearer old")
          ⟨some 2, none, "third"⟩ = (.error (status, error), twoMessageStore) ∧
        putReadRoute sampleJwtVerify twoMessageStore (some "Bearer old") [("conversationId", 2)] =
          (.error (status, error), twoMessageStore) ∧
        ∀ (α : Type) (rest : Nat → α × Store),
          guarded sampleJwtVerify (some "Bearer old") twoMessageStore rest =
            (.error (status, error), twoMessageStore) :=
  ⟨Or.inr ⟨"Bearer old", rfl, Or.inr (Or.inl (by decide))⟩,
    unauthenticated_request_rejected sampleJwtVerify stableEngine twoMessageStore 3
      (some "Bearer old") ⟨none, none, none⟩ ⟨some 2, none, "third"⟩ [("conversationId", 2)]
      (Or.inr ⟨"Bearer old", rfl, Or.inr (Or.inl (by decide))⟩)⟩

/-- After an operation the table of messages is the table before, followed by at most one row. -/
theorem storeAfter_messages (s : Store) (op : Operation) :
    ∃ added, (storeAfter s op).messages = s.messages ++ added ∧ added.length ≤ 1 := by
  cases op with
  | listMessages e userId q => exact ⟨[], by simp [storeAfter], by simp⟩
  | listConversations e userId => exact ⟨[], by simp [storeAfter], by simp⟩
  | post now senderId b => exact postMessage_messages s now senderId b
  | markRead userId params =>
    refine ⟨[], ?_, by simp⟩
    show (putRead s userId params).2.messages = _
    rw [putRead_store]
    simp
  | liveSend rooms now jsNow d =>
    show ∃ added, (sendMessageEvent s rooms now jsNow d).1.messages = _ ∧ _
    cases h : insertMessage s now d.senderId d.receiverId none d.text with
    | none =>
      rw [(live_send_store_of_failure s rooms now jsNow d h)]
      exact ⟨[], by simp, by simp⟩
    | some r =>
      obtain ⟨lastID, s'⟩ := r
      rw [sendMessageEvent_of_insert h]
      exact ⟨_, insertMessage_messages h, by simp⟩

/-- After a sequence of operations the table of messages starts with the table before. -/
theorem storeAfterAll_messages (ops : List Operation) : ∀ s : Store,
    ∃ added, (storeAfterAll s ops).messages = s.messages ++ added := by
  induction ops with
  | nil => exact fun s => ⟨[], by simp [storeAfterAll]⟩
  | cons op ops ih =>
    intro s
    obtain ⟨a₁, h₁, -⟩ := storeAfter_messages s op
    obtain ⟨a₂, h₂⟩ := ih (storeAfter s op)
    refine ⟨a₁ ++ a₂, ?_⟩
    show (storeAfterAll (storeAfter s op) ops).messages = _
    rw [h₂, h₁, List.append_assoc]

/-- C20. The message store is append-only: after every operation of the messaging interface (message
listing, conversation listing, `POST` send, `PUT /read/:conversationId`, live-channel send) the
table of messages is the table before, with every row unchanged in all its fields and none
deleted, followed by at most one new row. -/
theorem store_append_only (s : Store) (op : Operation) :
    ∃ added, (storeAfter s op).messages = s.messages ++ added ∧ added.length ≤ 1 :=
  storeAfter_messages s op

/-! ## Lemmas on the order of a page and on trimming -/

/-- The page of a listing, as sent, has `sent_at` non-decreasing. -/
theorem getMessages_pairwise (e : Engine) (he : e.Lawful) (s : Store) (userId : Nat)
    (q : ListQuery) :
    (getMessages e s userId q).messages.Pairwise (fun a b => a.m.sent_at ≤ b.m.sent_at) := by
  show (listPage e s userId q).reverse.Pairwise _
  rw [List.pairwise_reverse]
  exact ((he _ _ _).2).sublist (sqlLimitOffset_sublist _ _ _)

theorem jsTrim_replicate_a (n : Nat) :
    jsTrim (String.mk (List.replicate n 'a')) = String.mk (List.replicate n 'a') := by
  have hdrop : (List.replicate n 'a').dropWhile jsIsSpace = List.replicate n 'a' := by
    cases n with
    | zero => rfl
    | succ k =>
      rw [List.replicate_succ, List.dropWhile_cons]
      have : jsIsSpace 'a' = false := by decide
      simp [this]
  unfold jsTrim
  simp only [hdrop, List.reverse_replicate]

/-- C21 as stated fails: at a store without messages user 1 sends `A` and then `B` to user 2, and
the store gives both the same `sent_at`; the history of the pair lists `B` (id 2) before `A`
(id 1). -/
theorem same_instant_sends_not_in_send_order :
    (postMessage noMessageStore 7 1 ⟨some 2, none, "A"⟩).1.status = some 201 ∧
      (postMessage (postMessage noMessageStore 7 1 ⟨some 2, none, "A"⟩).2 7 1
        ⟨some 2, none, "B"⟩).1.status = some 201 ∧
      (getMessages stableEngine
        (postMessage (postMessage noMessageStore 7 1 ⟨some 2, none, "A"⟩).2 7 1
          ⟨some 2, none, "B"⟩).2 1 ⟨none, none, some 2⟩).messages.map
        (fun r => (r.m.id, r.m.text, r.m.sent_at)) = [(2, "B", 7), (1, "A", 7)] := by
  decide

/-- In a list ordered by `sent_at`, an element with a smaller `sent_at` comes before one with a
greater. -/
theorem pairwise_order_of_mem {l : List MessageRow} {rA rB : MessageRow}
    (hsorted : l.Pairwise (fun a b => a.m.sent_at ≤ b.m.sent_at))
    (hA : rA ∈ l) (hB : rB ∈ l) (hlt : rA.m.sent_at < rB.m.sent_at) :
    ∃ l₁ l₂ l₃, l = l₁ ++ rA :: (l₂ ++ rB :: l₃) := by
  obtain ⟨x, y, hxy⟩ := List.append_of_mem hA
  rw [hxy] at hsorted hB ⊢
  rw [List.pairwise_append] at hsorted
  obtain ⟨-, hy, hx⟩ := hsorted
  rcases List.mem_append.mp hB with hBx | hBy
  · have := hx rB hBx rA (List.mem_cons_self rA y)
    omega
  · rcases List.mem_cons.mp hBy with hEq | hBy
    · rw [hEq] at hlt; omega
    · obtain ⟨l₂, l₃, hl⟩ := List.append_of_mem hBy
      exact ⟨x, l₂, l₃, by rw [hl]⟩

/-- The page of an answer of the route has `sent_at` non-decreasing. -/
theorem getMessagesAnswer_pairwise (e : Engine) (he : e.Lawful) (s : Store) (userId : Nat)
    (q : ListQuery) (r : ListResponse) (h : getMessagesAnswer e s userId q = some r) :
    r.messages.Pairwise (fun a b => a.m.sent_at ≤ b.m.sent_at) := by
  unfold getMessagesAnswer at h
  simp only [Option.bind_eq_some] at h
  obtain ⟨page, -, limit, -, offset, -, h⟩ := h
  split_ifs at h
  simp only [Option.some.injEq] at h
  rw [← h]
  show (sqlLimitOffset _ _ _).reverse.Pairwise _
  rw [List.pairwise_reverse]
  exact ((he _ _ _).2).sublist (sqlLimitOffset_sublist _ _ _)

theorem postMessage_created_mem {s s' : Store} {now senderId : Nat} {b : MessageBody}
    {row : MessageRow} (h : postMessage s now senderId b = (.created (some row), s')) :
    row.m ∈ s'.messages ∧ row.m.sent_at = now := by
  obtain ⟨_, _, _, _, hins⟩ := postMessage_created_inv h
  obtain ⟨-, hm, -, hs'⟩ := insertAndRespond_created_inv hins
  refine ⟨?_, by rw [hm]⟩
  rw [hs']
  simp

/-- C21, amended. For every sender, if a send `A` is answered 201 and a later send `B` of that
sender is answered 201, whatever operations run between the two and after them, and the store
gives `B` a `sent_at` later than that of `A`, then both messages are still stored and every page
of the listing that holds both lists `A` before `B` (send order, the page being oldest-first),
whoever asks and with whatever paging.  For equal `sent_at` the order is left to the engine. -/
theorem later_send_listed_after (e : Engine) (he : e.Lawful) (s s₁ s₂ : Store)
    (now₁ now₂ senderId : Nat) (b₁ b₂ : MessageBody) (rowA rowB : MessageRow)
    (between after : List Operation)
    (hA : postMessage s now₁ senderId b₁ = (.created (some rowA), s₁))
    (hB : postMessage (storeAfterAll s₁ between) now₂ senderId b₂ = (.created (some rowB), s₂))
    (hclock : now₁ < now₂) (viewer : Nat) (q : ListQuery) :
    rowA.m ∈ (storeAfterAll s₂ after).messages ∧ rowB.m ∈ (storeAfterAll s₂ after).messages ∧
      (∀ rA rB, rA.m = rowA.m → rB.m = rowB.m →
        rA ∈ (getMessages e (storeAfterAll s₂ after) viewer q).messages →
        rB ∈ (getMessages e (storeAfterAll s₂ after) viewer q).messages →
        ∃ l₁ l₂ l₃, (getMessages e (storeAfterAll s₂ after) viewer q).messages =
          l₁ ++ rA :: (l₂ ++ rB :: l₃)) ∧
      ∀ r, getMessagesAnswer e (storeAfterAll s₂ after) viewer q = some r →
        ∀ rA rB, rA.m = rowA.m → rB.m = rowB.m → rA ∈ r.messages → rB ∈ r.messages →
          ∃ l₁ l₂ l₃, r.messages = l₁ ++ rA :: (l₂ ++ rB :: l₃) := by
  obtain ⟨hmemA, htA⟩ := postMessage_created_mem hA
  obtain ⟨hmemB, htB⟩ := postMessage_created_mem hB
  obtain ⟨a₁, h₁⟩ := storeAfterAll_messages between s₁
  obtain ⟨a₂, h₂⟩ := postMessage_messages (storeAfterAll s₁ between) now₂ senderId b₂
  rw [hB] at h₂
  obtain ⟨a₃, h₃⟩ := storeAfterAll_messages after s₂
  have hltAB : ∀ rA rB : MessageRow, rA.m = rowA.m → rB.m = rowB.m →
      rA.m.sent_at < rB.m.sent_at := by
    intro rA rB hrA hrB
    rw [hrA, hrB, htA, htB]
    exact hclock
  refine ⟨?_, ?_, ?_, ?_⟩
  · rw [h₃]
    refine List.mem_append_left _ ?_
    have h2 : s₂.messages = (storeAfterAll s₁ between).messages ++ a₂ := h₂.1
    rw [h2, h₁]
    exact List.mem_append_left _ (List.mem_append_left _ hmemA)
  · rw [h₃]
    exact List.mem_append_left _ hmemB
  · intro rA rB hrA hrB hinA hinB
    exact pairwise_order_of_mem (getMessages_pairwise e he _ viewer q) hinA hinB
      (hltAB rA rB hrA hrB)
  · intro r hr rA rB hrA hrB hinA hinB
    exact pairwise_order_of_mem (getMessagesAnswer_pairwise e he _ viewer q r hr) hinA hinB
      (hltAB rA rB hrA hrB)

/-- Witness of C21 amended: user 1 sends `A` at instant 7, user 2 replies at instant 8, user 1
sends `B` at instant 9, and user 1 reads the history with user 2. -/
theorem later_send_listed_after_witness :
    stableEngine.Lawful ∧
      postMessage noMessageStore 7 1 ⟨some 2, none, "A"⟩ =
        (.created (some ⟨⟨1, 1, 2, none, "A", 7⟩, "ann", "bob", none⟩),
          (postMessage noMessageStore 7 1 ⟨some 2, none, "A"⟩).2) ∧
      postMessage
          (storeAfterAll (postMessage noMessageStore 7 1 ⟨some 2, none, "A"⟩).2
            [Operation.post 8 2 ⟨some 1, none, "C"⟩]) 9 1 ⟨some 2, none, "B"⟩ =
        (.created (some ⟨⟨3, 1, 2, none, "B", 9⟩, "ann", "bob", none⟩),
          (postMessage
            (storeAfterAll (postMessage noMessageStore 7 1 ⟨some 2, none, "A"⟩).2
              [Operation.post 8 2 ⟨some 1, none, "C"⟩]) 9 1 ⟨some 2, none, "B"⟩).2) ∧
      7 < 9 ∧
      (getMessages stableEngine
        (storeAfterAll
          (postMessage
            (storeAfterAll (postMessage noMessageStore 7 1 ⟨some 2, none, "A"⟩).2
              [Operation.post 8 2 ⟨some 1, none, "C"⟩]) 9 1 ⟨some 2, none, "B"⟩).2
          [Operation.listMessages stableEngine 2 ⟨none, none, none⟩]) 1
        ⟨none, none, some 2⟩).messages.map (fun r => (r.m.id, r.m.text, r.m.sent_at)) =
          [(1, "A", 7), (2, "C", 8), (3, "B", 9)] ∧
      ∃ l₁ l₂ l₃,
        (getMessages stableEngine
          (storeAfterAll
            (postMessage
              (storeAfterAll (postMessage noMessageStore 7 1 ⟨some 2, none, "A"⟩).2
                [Operation.post 8 2 ⟨some 1, none, "C"⟩]) 9 1 ⟨some 2, none, "B"⟩).2
            [Operation.listMessages stableEngine 2 ⟨none, none, none⟩]) 1
          ⟨none, none, some 2⟩).messages =
          l₁ ++ (⟨⟨1, 1, 2, none, "A", 7⟩, "ann", "bob", none⟩ : MessageRow) ::
            (l₂ ++ (⟨⟨3, 1, 2, none, "B", 9⟩, "ann", "bob", none⟩ : MessageRow) :: l₃) :=
  ⟨stableEngine_lawful, by decide, by decide, by decide, by decide,
    (later_send_listed_after stableEngine stableEngine_lawful noMessageStore
      (postMessage noMessageStore 7 1 ⟨some 2, none, "A"⟩).2
      (postMessage
        (storeAfterAll (postMessage noMessageStore 7 1 ⟨some 2, none, "A"⟩).2
          [Operation.post 8 2 ⟨some 1, none, "C"⟩]) 9 1 ⟨some 2, none, "B"⟩).2
      7 9 1 ⟨some 2, none, "A"⟩ ⟨some 2, none, "B"⟩
      ⟨⟨1, 1, 2, none, "A", 7⟩, "ann", "bob", none⟩ ⟨⟨3, 1, 2, none, "B", 9⟩, "ann", "bob", none⟩
      [Operation.post 8 2 ⟨some 1, none, "C"⟩]
      [Operation.listMessages stableEngine 2 ⟨none, none, none⟩]
      (by decide) (by decide) (by decide) 1 ⟨none, none, some 2⟩).2.2.1
      ⟨⟨1, 1, 2, none, "A", 7⟩, "ann", "bob", none⟩ ⟨⟨3, 1, 2, none, "B", 9⟩, "ann", "bob", none⟩
      rfl rfl (by decide) (by decide)⟩

/-- C22. At `twoMessageStore`, with the store clock at instant 3 and the clock of the server process
at instant 4 when the callback runs, the row stored by the event `sendMessage` has `sent_at = 3`
and the message pushed to sockets 11, 12 and 10 has the same id, sender, receiver and text but
`sent_at = 4`. -/
theorem pushed_sent_at_not_from_store :
    (sendMessageEvent twoMessageStore sampleRooms 3 4 ⟨1, 2, "third"⟩).1.messages.getLast?.map
        (fun m => (m.id, m.sender_id, m.receiver_id, m.text, m.sent_at)) =
        some (3, 1, 2, "third", 3) ∧
      (sendMessageEvent twoMessageStore sampleRooms 3 4 ⟨1, 2, "third"⟩).2.map
        (fun p => (p.1, p.2.id, p.2.sender_id, p.2.receiver_id, p.2.text, p.2.sent_at)) =
        [(11, 3, 1, 2, "third", 4), (12, 3, 1, 2, "third", 4), (10, 3, 1, 2, "third", 4)] := by
  decide

/-- C23. A text of exactly 1000 characters passes `validateMessage`: no check fails, the message
`Message text is required and must be less than 1000 characters` included. -/
theorem thousand_characters_accepted :
    (jsTrim thousandChars).length = 1000 ∧
      (validateMessage ⟨some 2, none, thousandChars⟩).2 = [] := by
  have hlen : (jsTrim thousandChars).length = 1000 := by
    unfold thousandChars
    rw [jsTrim_replicate_a]
    exact List.length_replicate 1000 'a'
  refine ⟨hlen, ?_⟩
  rw [validateMessage_ok_iff]
  refine ⟨⟨2, rfl, by decide⟩, ?_, ?_⟩
  · intro q hq; cases hq
  · show 1 ≤ validatorLength (jsTrim thousandChars) ∧ validatorLength (jsTrim thousandChars) ≤ 1000
    have hvl : validatorLength (jsTrim thousandChars) = 1000 := by
      unfold thousandChars
      rw [jsTrim_replicate_a]
      have h := validatorLength_replicate_a 1000 []
      rw [List.append_nil] at h
      rw [h]
      rfl
    omega

/-- C24. With `NODE_ENV` set to `production`, the answer of `errorHandler` to an error named
`ValidationError` has the message of the error as its `message`: here the text
`no such table: messages`. -/
theorem validation_error_message_leaks :
    errorHandler (some "production") storageError =
        (400, ⟨"Validation Error", "no such table: messages", none, none⟩) ∧
      (errorHandler (some "production") storageError).2.message = storageError.message := by
  decide

/-- C25. A path parameter that is the integer 2 does not pass `validateIdParam` on any of the three
routes, whose parameter is named `conversationId`, `userId` and `sellerId` while the chain reads
`id`: the answer of `PUT /read/2` is 400 `ID must be a valid integer` and the handler does not
run. -/
theorem id_param_validation_rejects_valid_id :
    validateIdParam [("conversationId", 2)] = ["ID must be a valid integer"] ∧
      validateIdParam [("userId", 2)] = ["ID must be a valid integer"] ∧
      validateIdParam [("sellerId", 2)] = ["ID must be a valid integer"] ∧
      putRead twoMessageStore 1 [("conversationId", 2)] =
        (.validationFailed ["ID must be a valid integer"], twoMessageStore) ∧
      (putRead twoMessageStore 1 [("conversationId", 2)]).1.status = 400 := by
  decide

/-- C26. For every live-channel send and every socket that joined only rooms of users other than
the sender and the receiver, the socket receives no push of the message; every delivery goes to
a socket that joined under the sender or under the receiver. -/
theorem live_send_reaches_only_parties (s : Store) (rooms : Rooms) (now jsNow : Nat)
    (d : SendEvent) (socket : Nat)
    (hother : ∀ room, (socket, room) ∈ rooms → room ≠ d.senderId ∧ room ≠ d.receiverId) :
    (∀ m, (socket, m) ∉ (sendMessageEvent s rooms now jsNow d).2) ∧
      ∀ p ∈ (sendMessageEvent s rooms now jsNow d).2,
        (p.1, d.senderId) ∈ rooms ∨ (p.1, d.receiverId) ∈ rooms := by
  have hall : ∀ p ∈ (sendMessageEvent s rooms now jsNow d).2,
      (p.1, d.senderId) ∈ rooms ∨ (p.1, d.receiverId) ∈ rooms := by
    intro p hp
    cases h : insertMessage s now d.senderId d.receiverId none d.text with
    | none =>
      unfold sendMessageEvent at hp
      rw [h] at hp
      cases hp
    | some r =>
      obtain ⟨lastID, s'⟩ := r
      rw [sendMessageEvent_of_insert h] at hp
      obtain ⟨σ, m⟩ := p
      rcases List.mem_append.mp hp with hp | hp
      · exact Or.inr (mem_emitTo.mp hp).1
      · exact Or.inl (mem_emitTo.mp hp).1
  refine ⟨fun m hm => ?_, hall⟩
  rcases hall (socket, m) hm with h | h
  · exact (hother _ h).1 rfl
  · exact (hother _ h).2 rfl

/-- Witness of C26: socket 13 joined as user 3 only; user 1 sends to user 2. -/
theorem live_send_reaches_only_parties_witness :
    (∀ room, (13, room) ∈ sampleRooms →
        room ≠ (SendEvent.mk 1 2 "third").senderId ∧
          room ≠ (SendEvent.mk 1 2 "third").receiverId) ∧
      ∀ m, (13, m) ∉ (sendMessageEvent twoMessageStore sampleRooms 3 4 ⟨1, 2, "third"⟩).2 :=
  ⟨(by intro room h; simp [sampleRooms] at h; subst h; decide),
    (live_send_reaches_only_parties twoMessageStore sampleRooms 3 4 ⟨1, 2, "third"⟩ 13
      (by intro room h; simp [sampleRooms] at h; subst h; decide)).1⟩

/-! ## Lemmas on `sanitizeString` -/

theorem removeMatches_sublist (matchLength : List Char → Option Nat) (skip : Nat)
    (l : List Char) : (removeMatches matchLength skip l).Sublist l := by
  induction l generalizing skip with
  | nil => cases skip <;> simp [removeMatches]
  | cons c cs ih =>
    cases skip with
    | succ k =>
      rw [removeMatches]
      exact (ih k).cons c
    | zero =>
      rw [removeMatches]
      split
      · exact (ih _).cons c
      · exact (ih 0).cons₂ c

theorem firstGt_eq_none {l : List Char} (h : firstGt l = none) : '>' ∉ l := by
  induction l with
  | nil => simp
  | cons c cs ih =>
    unfold firstGt at h
    split_ifs at h with hc
    simp only [Option.map_eq_none'] at h
    intro hmem
    rcases List.mem_cons.mp hmem with heq | hmem
    · exact hc heq.symm
    · exact ih h hmem

/-- After the tags are removed no `<` is followed by a `>`. -/
theorem removeMatches_tag_pairwise (skip : Nat) (l : List Char) :
    (removeMatches tagMatchLength skip l).Pairwise (fun a b => ¬ (a = '<' ∧ b = '>')) := by
  induction l generalizing skip with
  | nil => cases skip <;> simp [removeMatches]
  | cons c cs ih =>
    cases skip with
    | succ k =>
      rw [removeMatches]
      exact ih k
    | zero =>
      rw [removeMatches]
      split
      · exact ih _
      · rename_i hno
        refine List.pairwise_cons.mpr ⟨?_, ih 0⟩
        rintro b hb ⟨hc, hbgt⟩
        subst hc hbgt
        have hmem : '>' ∈ cs := (removeMatches_sublist tagMatchLength 0 cs).subset hb
        cases hg : firstGt cs with
        | none => exact firstGt_eq_none hg hmem
        | some i =>
          exact hno i.succ (by simp [tagMatchLength, hg])

/-- C27. For every string, the output of `sanitizeString` has no `<` that is followed anywhere
later by `>`, hence no part of the form `<...>`: no tag survives, also where removing a tag puts
the pieces of another together, as in `<scr<b>ipt>`. -/
theorem sanitizeString_no_tag (str : String) :
    (sanitizeString str).data.Pairwise (fun a b => ¬ (a = '<' ∧ b = '>')) ∧
      (∀ l₁ l₂ l₃ : List Char, (sanitizeString str).data ≠ l₁ ++ '<' :: (l₂ ++ '>' :: l₃)) ∧
      sanitizeString "<scr<b>ipt>" = "ipt>" := by
  have hpw : (sanitizeString str).data.Pairwise (fun a b => ¬ (a = '<' ∧ b = '>')) := by
    show ((((removeMatches tagMatchLength 0
      (removeMatches scriptMatchLength 0 str.data)).dropWhile jsIsSpace).reverse.dropWhile
        jsIsSpace).reverse).Pairwise _
    refine (removeMatches_tag_pairwise 0 (removeMatches scriptMatchLength 0 str.data)).sublist ?_
    refine List.Sublist.trans ?_ (List.dropWhile_sublist jsIsSpace)
    rw [← List.reverse_sublist, List.reverse_reverse]
    exact List.dropWhile_sublist jsIsSpace
  refine ⟨hpw, ?_, by decide⟩
  intro l₁ l₂ l₃ h
  rw [h, List.pairwise_append] at hpw
  have := (List.pairwise_cons.mp hpw.2.1).1 '>' (by simp)
  exact this ⟨rfl, rfl⟩

/-- C28. For every total and every limit `n ≥ 1`, the value `pagination.pages` of `GET /api/messages`
is the least number of pages that covers all rows: `pages * n ≥ total`, `(pages - 1) * n < total`
when `total ≥ 1`, `pages = 0` when `total = 0`; hence the offset of every page number greater than
`pages` is at least `total`. -/
theorem pages_least_cover (total n : Nat) (hn : 1 ≤ n) :
    ∃ pages : Nat, jsPages total (n : Int) = some (pages : Int) ∧
      total ≤ pages * n ∧ (1 ≤ total → (pages - 1) * n < total) ∧ (total = 0 → pages = 0) ∧
      (∀ (page : Int) (c : Option Nat), (pages : Int) < page →
        (total : Int) ≤ listOffset ⟨some page, some (n : Int), c⟩) ∧
      ∀ (e : Engine) (s : Store) (userId : Nat) (q : ListQuery),
        (getMessages e s userId q).pagination.pages =
          jsPages (getMessages e s userId q).pagination.total
            (getMessages e s userId q).pagination.limit := by
  have hcover := le_pages_mul total n hn
  have hleast : 1 ≤ total → ((total + n - 1) / n - 1) * n < total := by
    intro ht
    have hmul : (total + n - 1) / n * n ≤ total + n - 1 := Nat.div_mul_le_self _ _
    have hpos : 1 ≤ (total + n - 1) / n := by
      rw [Nat.le_div_iff_mul_le (by omega)]
      omega
    have hsub : ((total + n - 1) / n - 1) * n = (total + n - 1) / n * n - n := by
      rw [Nat.sub_mul, Nat.one_mul]
    have hge : n ≤ (total + n - 1) / n * n := by
      calc n = 1 * n := (Nat.one_mul n).symm
        _ ≤ (total + n - 1) / n * n := Nat.mul_le_mul_right n hpos
    omega
  have hzero : total = 0 → (total + n - 1) / n = 0 := by
    intro h0
    subst h0
    exact Nat.div_eq_of_lt (by omega)
  refine ⟨(total + n - 1) / n, jsPages_pos total n hn, hcover, hleast, hzero, ?_,
    fun _ _ _ _ => rfl⟩
  intro page c hpage
  show (total : Int) ≤ (page - 1) * (n : Int)
  have h1 : ((((total + n - 1) / n : Nat) : Int)) ≤ page - 1 := by omega
  have h2 : (((total + n - 1) / n * n : Nat) : Int) ≤ (page - 1) * (n : Int) := by
    push_cast
    exact Int.mul_le_mul_of_nonneg_right h1 (by omega)
  have h3 : (total : Int) ≤ (((total + n - 1) / n * n : Nat) : Int) := by exact_mod_cast hcover
  exact le_trans h3 h2

/-- Witness of C28: 5 rows with limit 2 make 3 pages. -/
theorem pages_least_cover_witness :
    1 ≤ 2 ∧
      ∃ pages : Nat, jsPages 5 ((2 : Nat) : Int) = some (pages : Int) ∧
        5 ≤ pages * 2 ∧ (1 ≤ 5 → (pages - 1) * 2 < 5) ∧ (5 = 0 → pages = 0) ∧
        (∀ (page : Int) (c : Option Nat), (pages : Int) < page →
          ((5 : Nat) : Int) ≤ listOffset ⟨some page, some ((2 : Nat) : Int), c⟩) ∧
        ∀ (e : Engine) (s : Store) (userId : Nat) (q : ListQuery),
          (getMessages e s userId q).pagination.pages =
            jsPages (getMessages e s userId q).pagination.total
              (getMessages e s userId q).pagination.limit :=
  ⟨by decide, pages_least_cover 5 2 (by decide)⟩

end Vertex
